import Mathlib

/-!
Verification of the kasm scan-orchestration engine (Go sources under
`backend/scanner/` plus the URL-scan module) against its natural-language
specification.  The Go code is shallowly embedded: pure helpers become Lean
functions, the relational store becomes an explicit in-memory `DB` record
threaded through the operations, and the external providers (subfinder,
httpx, katana, wappalyzer, chromedp, GORM write failures) become oracle
records supplying their outcomes, so that every claim about the
orchestration logic is a statement over total, executable definitions.
-/

namespace Kasm

/-! ## Go `net.ParseIP` (subdomain_scanner.go, IP filtering in saveSubdomains)

`saveSubdomains` drops any hostname for which `net.ParseIP(sub) != nil`.
We embed the parser of the Go standard library (`netip.ParseAddr` semantics
as used by `net.ParseIP` in current Go: leading-zero IPv4 fields rejected,
zoned IPv6 addresses rejected).  Only nil-ness matters, so the embedding
returns a `Bool`. -/

/-- Numeric value of a decimal digit character, `none` for non-digits. -/
def digitVal (c : Char) : Option Nat :=
  if '0' ≤ c ∧ c ≤ '9' then some (c.toNat - 48) else none

/-- Numeric value of a hexadecimal digit character, `none` otherwise. -/
def hexVal (c : Char) : Option Nat :=
  if '0' ≤ c ∧ c ≤ '9' then some (c.toNat - 48)
  else if 'a' ≤ c ∧ c ≤ 'f' then some (c.toNat - 87)
  else if 'A' ≤ c ∧ c ≤ 'F' then some (c.toNat - 55)
  else none

/-- Split the longest run of decimal digits off the front of a char list. -/
def takeDigits : List Char → List Char × List Char
  | [] => ([], [])
  | c :: cs =>
    if (digitVal c).isSome then
      let p := takeDigits cs
      (c :: p.1, p.2)
    else ([], c :: cs)

/-- Split the longest run of hex digits off the front of a char list. -/
def takeHexDigits : List Char → List Char × List Char
  | [] => ([], [])
  | c :: cs =>
    if (hexVal c).isSome then
      let p := takeHexDigits cs
      (c :: p.1, p.2)
    else ([], c :: cs)

/-- Value of a list of decimal digit characters (most significant first). -/
def decValue (ds : List Char) : Nat :=
  ds.foldl (fun acc c => acc * 10 + ((digitVal c).getD 0)) 0

/-- Value of a list of hexadecimal digit characters (most significant first). -/
def hexValue (ds : List Char) : Nat :=
  ds.foldl (fun acc c => acc * 16 + ((hexVal c).getD 0)) 0

/-- Split a char list on a separator, like `strings.Split`. -/
def splitOnChar (sep : Char) : List Char → List (List Char)
  | [] => [[]]
  | c :: cs =>
    let r := splitOnChar sep cs
    if c = sep then [] :: r
    else
      match r with
      | [] => [[c]]
      | p :: ps => (c :: p) :: ps

/-- One dotted-decimal IPv4 field as accepted by Go `netip.parseIPv4`:
non-empty, all digits, at most 3 of them, no leading zero, value ≤ 255. -/
def v4FieldOk (ds : List Char) : Bool :=
  ds.length > 0 && ds.length ≤ 3 &&
  ds.all (fun c => (digitVal c).isSome) &&
  (ds.length == 1 || ds.head? != some '0') &&
  decValue ds ≤ 255

/-- Go `parseIPv4`: exactly four valid fields separated by dots. -/
def parseIPv4Go (cs : List Char) : Bool :=
  let fields := splitOnChar '.' cs
  fields.length == 4 && fields.all v4FieldOk

/-- One step outcome of the IPv6 group loop. -/
inductive V6Step where
  | fail : V6Step
  | done (i : Nat) (ellipsis : Bool) : V6Step
  | continue_ (i : Nat) (ellipsis : Bool) (rest : List Char) : V6Step

/-- End-of-input acceptance for the IPv6 parser: with an ellipsis the
address must be short of 16 bytes, without one it must be exactly 16. -/
def v6Accept (i : Nat) (ellipsis : Bool) : Bool :=
  if i < 16 then ellipsis else i == 16 && !ellipsis

/-- One iteration of the Go `parseIPv6` loop body (fills two bytes from a
hex group, or four from a trailing embedded IPv4 address). -/
def v6Step (i : Nat) (ellipsis : Bool) (s : List Char) : V6Step :=
  let p := takeHexDigits s
  if p.1.length == 0 then .fail
  else if hexValue p.1 > 0xffff then .fail
  else if p.2.head? = some '.' then
    -- trailing embedded IPv4 replaces the final four bytes
    if !ellipsis && i ≠ 12 then .fail
    else if i + 4 > 16 then .fail
    else if parseIPv4Go s then .done (i + 4) ellipsis
    else .fail
  else
    let i' := i + 2
    match p.2 with
    | [] => .done i' ellipsis
    | c :: rest =>
      if c ≠ ':' then .fail
      else
        match rest with
        | [] => .fail
        | c2 :: rest2 =>
          if c2 = ':' then
            if ellipsis then .fail
            else
              match rest2 with
              | [] => .done i' true
              | _ => .continue_ i' true rest2
          else .continue_ i' ellipsis (c2 :: rest2)

/-- Fueled main loop of Go `parseIPv6`; every iteration consumes at least
one character, so fuel `s.length + 1` is always sufficient. -/
def v6Loop : Nat → Nat → Bool → List Char → Bool
  | 0, _, _, _ => false
  | fuel + 1, i, ellipsis, s =>
    if i ≥ 16 then
      s.isEmpty && v6Accept i ellipsis
    else
      match v6Step i ellipsis s with
      | .fail => false
      | .done i' e' => v6Accept i' e'
      | .continue_ i' e' rest => v6Loop fuel i' e' rest

/-- Go `parseIPv6` (zone-free; `net.ParseIP` rejects zoned addresses). -/
def parseIPv6Go (cs : List Char) : Bool :=
  match cs with
  | ':' :: ':' :: rest =>
    match rest with
    | [] => true
    | _ => v6Loop (rest.length + 1) 0 true rest
  | _ => v6Loop (cs.length + 1) 0 false cs

/-- Dispatcher of Go `net.ParseIP` / `netip.ParseAddr`: the first `.`
selects IPv4 parsing, the first `:` IPv6 parsing, a `%` before either is an
error, and a string with none of them is not an address. -/
def ipDispatch (full : List Char) : List Char → Bool
  | [] => false
  | c :: cs =>
    if c = '.' then parseIPv4Go full
    else if c = ':' then parseIPv6Go full
    else if c = '%' then false
    else ipDispatch full cs

/-- `net.ParseIP(s) != nil`, the predicate used by `saveSubdomains` to drop
bare IP addresses from the batch of subdomain rows. -/
def isIPAddress (s : String) : Bool :=
  ipDispatch s.data s.data

/-! ## Data model (models package)

The GORM entities, with time instants abstracted as `Nat` ticks and the
nullable `ScanID` foreign keys as `Option Nat`.  Relation fields that GORM
materialises from joins are omitted: they are not columns. -/

/-- A `models.Subdomain` row; `(hostname, rootDomainID)` is the natural key
(unique index `idx_hostname_rootdomain`). -/
structure Subdomain where
  id : Nat
  rootDomainID : Nat
  hostname : String
  isActive : Bool
  discoveredAt : Nat
  scanID : Option Nat
  deriving DecidableEq, Repr

/-- A `models.Endpoint` row; `(subdomainID, path, method)` is the natural key. -/
structure Endpoint where
  id : Nat
  subdomainID : Nat
  path : String
  method : String
  statusCode : Int
  contentType : String
  discoveredAt : Nat
  scanID : Option Nat
  deriving DecidableEq, Repr

/-- A `models.Parameter` row; `(endpointID, name, paramType)` is the natural key. -/
structure Parameter where
  id : Nat
  endpointID : Nat
  name : String
  paramType : String
  discoveredAt : Nat
  deriving DecidableEq, Repr

/-- A `models.Technology` row (name is stored case-normalized). -/
structure Technology where
  id : Nat
  name : String
  deriving DecidableEq, Repr

/-- A `models.SubdomainTechnology` join row. -/
structure SubdomainTechnology where
  subdomainID : Nat
  technologyID : Nat
  detectedAt : Nat
  deriving DecidableEq, Repr

/-- The relational store: the tables the scanner writes, plus a fresh-id
allocator standing in for the database sequences (ids start at 1, so a
stored row never carries the zero/unset id value). -/
structure DB where
  subdomains : List Subdomain
  endpoints : List Endpoint
  parameters : List Parameter
  technologies : List Technology
  subdomainTechs : List SubdomainTechnology
  nextID : Nat
  deriving DecidableEq, Repr

/-- An empty store. -/
def DB.empty : DB := ⟨[], [], [], [], [], 1⟩

/-- Association-list lookup (hostname → id maps). -/
def assocFind (m : List (String × Nat)) (k : String) : Option Nat :=
  match m.find? (fun p => p.1 == k) with
  | some p => some p.2
  | none => none

/-- `sync.Map.Store`: update the binding in place or append it. -/
def assocStore (m : List (String × Nat)) (k : String) (v : Nat) : List (String × Nat) :=
  if (assocFind m k).isSome then
    m.map (fun p => if p.1 == k then (p.1, v) else p)
  else m ++ [(k, v)]

/-! ## saveSubdomains (subdomain_scanner.go)

Batch insert of the active hostname set with `ON CONFLICT (hostname,
root_domain_id) DO NOTHING`, followed by a re-read of the rows for those
hostnames to build the authoritative hostname→id map. -/

/-- The batch of `models.Subdomain` values built by `saveSubdomains`: every
hostname of the active set except the ones that parse as IP addresses. -/
def subdomainBatch (rootDomainID scanID now : Nat) (subs : List String) :
    List Subdomain :=
  (subs.filter (fun s => !isIPAddress s)).map (fun s =>
    { id := 0, rootDomainID := rootDomainID, hostname := s, isActive := true
      discoveredAt := now, scanID := some scanID })

/-- The subdomain natural-key predicate `(hostname, root_domain_id)`. -/
def subdomainKeyMatch (row : Subdomain) (r : Subdomain) : Bool :=
  r.hostname == row.hostname && r.rootDomainID == row.rootDomainID

/-- Conflict-ignoring insert: leave the store untouched when a row with the
same `(hostname, rootDomainID)` already exists. -/
def insertSubdomainIgnore (db : DB) (row : Subdomain) : DB :=
  if db.subdomains.any (subdomainKeyMatch row) then db
  else
    { db with
      subdomains := db.subdomains ++ [{ row with id := db.nextID }]
      nextID := db.nextID + 1 }

/-- `saveSubdomains`: batch conflict-ignoring insert, then fetch the ids of
every intended hostname (new and pre-existing) for the root domain. -/
def saveSubdomains (db : DB) (rootDomainID scanID now : Nat)
    (subs : List String) : DB × List (String × Nat) :=
  if subs.isEmpty then (db, [])
  else
    let batch := subdomainBatch rootDomainID scanID now subs
    let db1 := batch.foldl insertSubdomainIgnore db
    let fetched := db1.subdomains.filter (fun r =>
      r.rootDomainID == rootDomainID && batch.any (fun b => b.hostname == r.hostname))
    (db1, fetched.map (fun r => (r.hostname, r.id)))

/-! ## URL scan phase (url_scanner module)

`processKatanaOutput` is the katana `OnResult` callback: it filters crawl
results, enforces root-domain scope via public-suffix-aware parsing, and
emits an `urlScanResult` to the channel consumed by `saveURLScanResults`.
The outcomes of the external parsers `url.Parse` and `publicsuffix.Parse`
travel with each input as oracle fields. -/

/-- What `url.Parse` + `Hostname()`/`Path`/`Query()` produced for a crawled
URL: hostname, path, and the query parameters with their value lists. -/
structure ParsedURL where
  hostname : String
  path : String
  query : List (String × List String)
  deriving DecidableEq, Repr

/-- What `publicsuffix.Parse` produced for a hostname: second-level and
top-level domain of its registrable root. -/
structure PSDomain where
  sld : String
  tld : String
  deriving DecidableEq, Repr

/-- A katana crawl result as seen by `processKatanaOutput`, together with
the oracle outcomes of the two external parsers applied to it. -/
structure KatanaInput where
  hasRequest : Bool
  hasResponse : Bool
  statusCode : Int
  url : String
  method : String
  contentType : String
  parsedURL : Option ParsedURL
  psParse : Option PSDomain
  deriving DecidableEq, Repr

/-- The processed crawl result sent over the results channel. -/
structure UrlScanResult where
  hostname : String
  fullURL : String
  endpoint : Endpoint
  params : List Parameter
  deriving DecidableEq, Repr

/-- The registrable root computed by `processKatanaOutput`:
`SLD + "." + TLD`, or the hostname itself when the SLD is empty. -/
def hostRootOf (ps : PSDomain) (hostname : String) : String :=
  if ps.sld = "" then hostname else ps.sld ++ "." ++ ps.tld

/-- `processKatanaOutput`: basic success filtering, hostname extraction,
public-suffix scope check against the `rootDomain` argument, then
conversion into an endpoint plus query parameters.  `none` means the
result was rejected and never reaches the channel. -/
def processKatanaOutput (rootDomain : String) (scanID now : Nat)
    (r : KatanaInput) : Option UrlScanResult :=
  if !r.hasRequest || !r.hasResponse || r.statusCode < 200 || r.statusCode ≥ 400 then
    none
  else
    match r.parsedURL with
    | none => none
    | some u =>
      if u.hostname = "" then none
      else
        match r.psParse with
        | none => none
        | some ps =>
          if hostRootOf ps u.hostname ≠ rootDomain then none
          else some
            { hostname := u.hostname
              fullURL := r.url
              endpoint :=
                { id := 0, subdomainID := 0, path := u.path, method := r.method
                  statusCode := r.statusCode, contentType := r.contentType
                  discoveredAt := now, scanID := some scanID }
              params := u.query.filterMap (fun q =>
                if q.2.length > 0 then
                  some { id := 0, endpointID := 0, name := q.1
                         paramType := "query", discoveredAt := now }
                else none) }

/-! ### Path cleanup (`url.Parse` on an absolute endpoint path)

`saveURLScanResults` re-parses each endpoint path; when it is an absolute
URL the path component replaces it (empty becomes `/`).  We embed the
relevant slice of Go `url.Parse`: scheme detection, authority skipping and
path extraction up to the query/fragment. -/

/-- A character allowed inside a URL scheme after its first letter. -/
def isSchemeChar (c : Char) : Bool :=
  c.isAlpha || (digitVal c).isSome || c = '+' || c = '-' || c = '.'

/-- Longest run of scheme characters off the front of a char list. -/
def takeScheme : List Char → List Char × List Char
  | [] => ([], [])
  | c :: cs =>
    if isSchemeChar c then
      let p := takeScheme cs
      (c :: p.1, p.2)
    else ([], c :: cs)

/-- Split at the first occurrence of one of the stop characters. -/
def takeUntil (stops : List Char) : List Char → List Char × List Char
  | [] => ([], [])
  | c :: cs =>
    if stops.contains c then ([], c :: cs)
    else
      let p := takeUntil stops cs
      (c :: p.1, p.2)

/-- Go `url.Parse` scheme split: `some (scheme, rest)` when the string
starts with `letter schemechar* ":"`. -/
def schemeSplit (cs : List Char) : Option (List Char × List Char) :=
  let p := takeScheme cs
  match p.1, p.2 with
  | [], _ => none
  | c :: rest1, ':' :: rest2 =>
    if c.isAlpha then some (c :: rest1, rest2) else none
  | _, _ => none

/-- Path component of an absolute URL after the scheme: skip `//authority`,
then take the path up to `?` or `#`; an opaque part yields the empty path. -/
def absURLPath (rest : List Char) : List Char :=
  match rest with
  | '/' :: '/' :: tail =>
    let afterAuth := (takeUntil ['/', '?', '#'] tail).2
    match afterAuth with
    | '/' :: _ => (takeUntil ['?', '#'] afterAuth).1
    | _ => []
  | '/' :: _ => (takeUntil ['?', '#'] rest).1
  | _ => []

/-- The path cleanup of `saveURLScanResults`: when the stored path parses
as an absolute URL, keep only its path component, defaulting to `/`. -/
def cleanupPath (p : String) : String :=
  match schemeSplit p.data with
  | none => p
  | some s =>
    let path := absURLPath s.2
    if path.isEmpty then "/" else path.asString

/-! ### saveURLScanResults (channel consumer) -/

/-- One buffered crawl result awaiting subdomain-id resolution. -/
structure CrawlRow where
  host : String
  ep : Endpoint
  params : List Parameter
  fullURL : String
  deriving DecidableEq, Repr

/-- Shared state of the collection loop: the scan-scoped `sync.Map`, the
list of subdomains scheduled for batch creation, and the buffered rows. -/
structure CollectState where
  sync : List (String × Nat)
  toCreate : List Subdomain
  buffered : List CrawlRow
  deriving Repr

/-- One iteration of the channel drain: `LoadOrStore` the hostname with
placeholder id 0, schedule unseen non-root hostnames for creation (with an
in-slice duplicate check), and buffer the endpoint data. -/
def collectStep (rootDomain : String) (rootDomainID scanID now : Nat)
    (st : CollectState) (r : UrlScanResult) : CollectState :=
  let known := (assocFind st.sync r.hostname).isSome
  let sync1 := if known then st.sync else st.sync ++ [(r.hostname, 0)]
  let toCreate1 :=
    if !known && r.hostname ≠ rootDomain
        && !(st.toCreate.any (fun s => s.hostname == r.hostname)) then
      st.toCreate ++
        [{ id := 0, rootDomainID := rootDomainID, hostname := r.hostname
           isActive := true, discoveredAt := now, scanID := some scanID }]
    else st.toCreate
  { sync := sync1
    toCreate := toCreate1
    buffered := st.buffered ++ [⟨r.hostname, r.endpoint, r.params, r.fullURL⟩] }

/-- The `DO UPDATE` assignment of the crawl-phase subdomain upsert. -/
def updateSubdomainRow (row : Subdomain) (r : Subdomain) : Subdomain :=
  if subdomainKeyMatch row r then
    { r with scanID := row.scanID, discoveredAt := row.discoveredAt
             isActive := row.isActive }
  else r

/-- Conflict-updating insert used for newly crawled subdomains
(`ON CONFLICT (hostname, root_domain_id) DO UPDATE scan_id, discovered_at,
is_active`). -/
def upsertSubdomainUpdate (db : DB) (row : Subdomain) : DB :=
  if db.subdomains.any (subdomainKeyMatch row) then
    { db with subdomains := db.subdomains.map (updateSubdomainRow row) }
  else
    { db with
      subdomains := db.subdomains ++ [{ row with id := db.nextID }]
      nextID := db.nextID + 1 }

/-- Secondary-cache fallback: a non-zero id stored in the scan-scoped
`sync.Map`, if any. -/
def resolveFallback (sync : List (String × Nat)) (host : String) : Option Nat :=
  match assocFind sync host with
  | some id => if id ≠ 0 then some id else none
  | none => none

/-- Resolve a hostname to a durable subdomain id: refreshed map first, then
the `sync.Map` fallback; `none` when only a zero/unset id is available. -/
def resolveSubID (subMap sync : List (String × Nat)) (host : String) :
    Option Nat :=
  match assocFind subMap host with
  | some id => if id ≠ 0 then some id else resolveFallback sync host
  | none => resolveFallback sync host

/-- The endpoint natural-key predicate `(subdomainID, path, method)`. -/
def endpointKeyMatch (ep : Endpoint) (x : Endpoint) : Bool :=
  x.subdomainID == ep.subdomainID && x.path == ep.path && x.method == ep.method

/-- The `Assign` update of the endpoint upsert: status, content type,
discovery time and scan reference change; the natural key does not. -/
def updateEndpointRow (ep : Endpoint) (x : Endpoint) : Endpoint :=
  if endpointKeyMatch ep x then
    { x with statusCode := ep.statusCode, contentType := ep.contentType
             discoveredAt := ep.discoveredAt, scanID := ep.scanID }
  else x

/-- `FirstOrCreate` on the endpoint natural key `(subdomainID, path,
method)`: update status/content-type/discovery-time/scan reference in
place when found, insert otherwise.  Returns the endpoint's id. -/
def upsertEndpoint (db : DB) (ep : Endpoint) : DB × Nat :=
  match db.endpoints.find? (endpointKeyMatch ep) with
  | some e =>
    ({ db with endpoints := db.endpoints.map (updateEndpointRow ep) }, e.id)
  | none =>
    ({ db with
       endpoints := db.endpoints ++ [{ ep with id := db.nextID }]
       nextID := db.nextID + 1 },
     db.nextID)

/-- The parameter natural-key predicate `(endpointID, name, paramType)`. -/
def parameterKeyMatch (p : Parameter) (q : Parameter) : Bool :=
  q.endpointID == p.endpointID && q.name == p.name && q.paramType == p.paramType

/-- The `Assign` update of the parameter upsert: only the discovery time
changes. -/
def updateParameterRow (p : Parameter) (q : Parameter) : Parameter :=
  if parameterKeyMatch p q then { q with discoveredAt := p.discoveredAt }
  else q

/-- `FirstOrCreate` on the parameter natural key `(endpointID, name,
paramType)`: update the discovery time in place when found, insert
otherwise. -/
def upsertParameter (db : DB) (p : Parameter) : DB :=
  match db.parameters.find? (parameterKeyMatch p) with
  | some _ =>
    { db with parameters := db.parameters.map (updateParameterRow p) }
  | none =>
    { db with
      parameters := db.parameters ++ [{ p with id := db.nextID }]
      nextID := db.nextID + 1 }

/-- The endpoint value persisted for one crawl row once its hostname has
been resolved to the subdomain id `sid`. -/
def resolvedEndpoint (row : CrawlRow) (sid : Nat) : Endpoint :=
  { row.ep with subdomainID := sid, path := cleanupPath row.ep.path }

/-- Persist one crawl row under a resolved subdomain id: upsert the
endpoint, then its parameters unless the endpoint did not obtain a
non-zero id. -/
def persistResolved (db : DB) (row : CrawlRow) (sid : Nat) : DB :=
  if (upsertEndpoint db (resolvedEndpoint row sid)).2 == 0 then
    (upsertEndpoint db (resolvedEndpoint row sid)).1
  else
    row.params.foldl
      (fun d p => upsertParameter d
        { p with endpointID := (upsertEndpoint db (resolvedEndpoint row sid)).2 })
      (upsertEndpoint db (resolvedEndpoint row sid)).1

/-- Persist one buffered crawl result: resolve its hostname to a non-zero
subdomain id (drop the row otherwise), upsert the endpoint, and upsert its
parameters unless the endpoint did not obtain a non-zero id. -/
def persistRow (subMap sync : List (String × Nat)) (db : DB)
    (row : CrawlRow) : DB :=
  match resolveSubID subMap sync row.host with
  | none => db
  | some sid => persistResolved db row sid

/-- The hostname→id map read from the store for one root domain (used both
for the initial load and for the authoritative refresh). -/
def crawlSubMap (db : DB) (rootDomainID : Nat) : List (String × Nat) :=
  (db.subdomains.filter (fun r => r.rootDomainID == rootDomainID)).map
    (fun r => (r.hostname, r.id))

/-- The channel drain of `saveURLScanResults`: existing rows loaded into
the scan-scoped map, then every result collected in order. -/
def crawlCollect (db : DB) (rootDomain : String)
    (rootDomainID scanID now : Nat) (initialSync : List (String × Nat))
    (results : List UrlScanResult) : CollectState :=
  results.foldl (collectStep rootDomain rootDomainID scanID now)
    ⟨(db.subdomains.filter (fun r => r.rootDomainID == rootDomainID)).foldl
       (fun m r => assocStore m r.hostname r.id) initialSync, [], []⟩

/-- The persistence half of `saveURLScanResults`: when new subdomains were
collected, batch-create them and re-read the authoritative hostname→id map
before resolving; then upsert every buffered endpoint with its
parameters. -/
def crawlPersist (db : DB) (rootDomainID : Nat) (st : CollectState) : DB :=
  if st.toCreate.isEmpty then
    st.buffered.foldl (persistRow (crawlSubMap db rootDomainID) st.sync) db
  else
    st.buffered.foldl
      (persistRow
        (crawlSubMap (st.toCreate.foldl upsertSubdomainUpdate db) rootDomainID)
        ((crawlSubMap (st.toCreate.foldl upsertSubdomainUpdate db)
            rootDomainID).foldl (fun m p => assocStore m p.1 p.2) st.sync))
      (st.toCreate.foldl upsertSubdomainUpdate db)

/-- `saveURLScanResults`: load the existing subdomain rows into both maps,
drain the channel, batch-create the newly seen subdomains (followed by the
authoritative full re-read of the root domain's rows), then resolve and
upsert every buffered endpoint with its parameters. -/
def saveURLScanResults (db : DB) (rootDomain : String)
    (rootDomainID scanID now : Nat) (initialSync : List (String × Nat))
    (results : List UrlScanResult) : DB :=
  crawlPersist db rootDomainID
    (crawlCollect db rootDomain rootDomainID scanID now initialSync results)

/-- `ExecuteURLScan` (store side): the katana callback feeds every crawl
result through `processKatanaOutput` into the channel consumed by
`saveURLScanResults`; rejected results never reach the consumer. -/
def ExecuteURLScan (db : DB) (rootDomain : String)
    (rootDomainID scanID now : Nat) (existingSubdomains : List (String × Nat))
    (katanaResults : List KatanaInput) : DB :=
  saveURLScanResults db rootDomain rootDomainID scanID now existingSubdomains
    (katanaResults.filterMap (processKatanaOutput rootDomain scanID now))

/-! ## Technology detection phase (tech_scanner.go)

`ExecuteTechScan` fetches every URL sequentially (outcome supplied by a
fetch oracle combining the HTTP client and the wappalyzer fingerprinting),
collects per-URL errors, and hands the results to `saveTechnologies`,
which writes them inside one transaction.  GORM write failures are
supplied by a `TechOracle`. -/

/-- The per-URL error entry appended by the sequential fetch loop. -/
def fetchErrEntry (u e : String) : String := "url " ++ u ++ ": " ++ e

/-- ASCII lowering of one character. -/
def lowerChar (c : Char) : Char :=
  if 'A' ≤ c ∧ c ≤ 'Z' then Char.ofNat (c.toNat + 32) else c

/-- The case normalization `strings.ToLower` applied to technology names
(technology names are ASCII; the embedding lowers the ASCII range). -/
def lowerName (s : String) : String := ⟨s.data.map lowerChar⟩

/-- The sequential fetch loop of `ExecuteTechScan`: a fetch failure for one
URL appends an error and moves on; a successful fetch with a non-empty
fingerprint set is recorded under its URL. -/
def techLoop (fetch : String → Except String (List String)) :
    List String → List (String × List String) × List String
  | [] => ([], [])
  | u :: us =>
    match fetch u with
    | .error e =>
      let r := techLoop fetch us
      (r.1, fetchErrEntry u e :: r.2)
    | .ok techs =>
      let r := techLoop fetch us
      (if techs.isEmpty then r.1 else (u, techs) :: r.1, r.2)

/-- One fingerprinted URL handed to persistence, with the outcome of
`url.Parse(...).Hostname()` as an oracle field. -/
structure TechEntry where
  url : String
  host : Option String
  techs : List String
  deriving DecidableEq, Repr

/-- Success/failure of each GORM operation inside `saveTechnologies`. -/
structure TechOracle where
  beginOK : Bool
  fetchRootOK : Bool
  fetchSubsOK : Bool
  rootSubQueryOK : Bool
  createRootSubOK : Bool
  techQueryOK : String → Bool
  techCreateOK : String → Bool
  batchInsertOK : Bool
  commitOK : Bool

/-- Working state of the technology loop: the uncommitted transaction, the
processed-technology cache, and the accumulated join rows. -/
structure TechLoopState where
  tx : DB
  cache : List (String × Nat)
  joins : List SubdomainTechnology

/-- Handle one detected technology name: normalize case, consult the
cache, then find-or-create the `Technology` row; a query or create error
skips only this technology. -/
def processTech (o : TechOracle) (now sid : Nat) (st : TechLoopState)
    (techName : String) : TechLoopState :=
  let nm := lowerName techName
  match assocFind st.cache nm with
  | some tid => { st with joins := st.joins ++ [⟨sid, tid, now⟩] }
  | none =>
    if !o.techQueryOK nm then st
    else
      match st.tx.technologies.find? (fun t => t.name == nm) with
      | some t =>
        { st with cache := st.cache ++ [(nm, t.id)]
                  joins := st.joins ++ [⟨sid, t.id, now⟩] }
      | none =>
        if !o.techCreateOK nm then st
        else
          let tid := st.tx.nextID
          { tx := { st.tx with
                    technologies := st.tx.technologies ++ [⟨tid, nm⟩]
                    nextID := tid + 1 }
            cache := st.cache ++ [(nm, tid)]
            joins := st.joins ++ [⟨sid, tid, now⟩] }

/-- Handle one fingerprinted URL: extract the hostname, look up its
subdomain id, and process each detected technology; unresolvable hosts
are skipped. -/
def processTechEntry (o : TechOracle) (now : Nat)
    (subMap : List (String × Nat)) (st : TechLoopState) (e : TechEntry) :
    TechLoopState :=
  match e.host with
  | none => st
  | some h =>
    if h = "" then st
    else
      match assocFind subMap h with
      | none => st
      | some sid => e.techs.foldl (processTech o now sid) st

/-- The hostname→id map pre-fetched inside the transaction; a fetch error
degrades to an empty map with a warning. -/
def techSubMap (db : DB) (rootDomainID : Nat) (o : TechOracle) :
    List (String × Nat) :=
  if o.fetchSubsOK then
    (db.subdomains.filter (fun r => r.rootDomainID == rootDomainID)).map
      (fun r => (r.hostname, r.id))
  else []

/-- Ensure a Subdomain row exists for the root domain's own hostname
(creating one inside the transaction when missing); the Bool records
whether the ensure step succeeded. -/
def ensureRootSub (db : DB) (rootDomainName : String)
    (rootDomainID scanID now : Nat) (o : TechOracle) :
    DB × List (String × Nat) × Bool :=
  match db.subdomains.find? (fun r =>
      r.rootDomainID == rootDomainID && r.hostname == rootDomainName) with
  | some r => (db, assocStore (techSubMap db rootDomainID o) rootDomainName
      r.id, true)
  | none =>
    if !o.createRootSubOK then (db, techSubMap db rootDomainID o, false)
    else
      ({ db with
         subdomains := db.subdomains ++
           [{ id := db.nextID, rootDomainID := rootDomainID
              hostname := rootDomainName, isActive := true
              discoveredAt := now, scanID := some scanID }]
         nextID := db.nextID + 1 },
       techSubMap db rootDomainID o ++ [(rootDomainName, db.nextID)], true)

/-- End of the transaction: batch-insert the join rows and commit; any
failure publishes nothing and reports the error against the original
store `db0`. -/
def techFinish (db0 : DB) (o : TechOracle) (st : TechLoopState) :
    DB × Option String :=
  if st.joins.isEmpty then
    if !o.commitOK then
      (db0, some "failed to commit transaction after finding no tech relationships")
    else (st.tx, none)
  else if !o.batchInsertOK then
    (db0, some "failed to save technology relationships")
  else if !o.commitOK then (db0, some "failed to commit transaction")
  else
    ({ st.tx with subdomainTechs := st.tx.subdomainTechs ++ st.joins }, none)

/-- `saveTechnologies`: one transaction around the whole batch.  Errors on
the pre-fetches, the root-subdomain ensure step, the association batch
insert or the commit return with nothing published; individual technology
find-or-create errors skip only that technology. -/
def saveTechnologies (db : DB) (rootDomainName : String)
    (rootDomainID scanID now : Nat) (entries : List TechEntry)
    (o : TechOracle) : DB × Option String :=
  if entries.isEmpty then (db, none)
  else if !o.beginOK then (db, some "failed to begin transaction")
  else if !o.fetchRootOK then (db, some "failed to fetch root domain")
  else if !o.rootSubQueryOK then
    (db, some "failed to query subdomain entry for root domain")
  else if !(ensureRootSub db rootDomainName rootDomainID scanID now o).2.2 then
    (db, some "failed to create subdomain entry for root domain")
  else
    techFinish db o (entries.foldl
      (processTechEntry o now
        (ensureRootSub db rootDomainName rootDomainID scanID now o).2.1)
      ⟨(ensureRootSub db rootDomainName rootDomainID scanID now o).1, [], []⟩)

/-- `ExecuteTechScan`: sequential fetch loop, then transactional
persistence; the save error, if any, joins the per-URL fetch errors. -/
def ExecuteTechScan (db : DB) (urls : List String)
    (fetch : String → Except String (List String))
    (hostOf : String → Option String) (rootDomainName : String)
    (rootDomainID scanID now : Nat) (o : TechOracle) : DB × List String :=
  let p := techLoop fetch urls
  let entries := p.1.map (fun r => TechEntry.mk r.1 (hostOf r.1) r.2)
  let s := saveTechnologies db rootDomainName rootDomainID scanID now entries o
  (s.1, p.2 ++ (match s.2 with
    | some e => ["failed to save technologies: " ++ e]
    | none => []))

/-! ## Screenshot capture (screenshot_scanner.go) -/

/-- Success/failure of each step of `TakeScreenshot`: directory creation,
chromedp navigation+capture, screenshot file write, metadata row insert. -/
structure ShotOracle where
  mkdirOK : Bool
  captureOK : Bool
  writeOK : Bool
  dbInsertOK : Bool
  deriving DecidableEq, Repr

/-- Observable outcome of one capture attempt: the returned error (if
any), whether the image file was written, and whether the `Screenshot`
metadata row was recorded. -/
structure ShotOutcome where
  result : Option String
  fileWritten : Bool
  rowRecorded : Bool
  deriving DecidableEq, Repr

/-- `TakeScreenshot`: only a directory-creation failure is returned as an
error; capture, file-write and metadata-insert failures are logged and
reported as success, with whatever artifacts were produced so far. -/
def TakeScreenshot (o : ShotOracle) : ShotOutcome :=
  if !o.mkdirOK then
    { result := some "failed to create screenshot directory"
      fileWritten := false, rowRecorded := false }
  else if !o.captureOK then
    { result := none, fileWritten := false, rowRecorded := false }
  else if !o.writeOK then
    { result := none, fileWritten := false, rowRecorded := false }
  else if !o.dbInsertOK then
    { result := none, fileWritten := true, rowRecorded := false }
  else
    { result := none, fileWritten := true, rowRecorded := true }

/-! ## Scan orchestration (ExecuteSubdomainScan)

The whole pipeline of `ExecuteSubdomainScan`, with the external providers
and the fallible persistence steps supplied by a `ScanOracle`.  The
technology phase's own table writes are covered by the `saveTechnologies`
model above; inside the orchestration it contributes its aggregated
errors.  Screenshot outcomes are recorded but, as in the source, never
appended to the scan's error list. -/

/-- Result of the `saveSubdomains` call as observed by the orchestrator:
success, a failed batch insert, or a failed id re-read after a successful
insert. -/
inductive SaveOutcome where
  | ok : SaveOutcome
  | createErr (e : String) : SaveOutcome
  | fetchErr (e : String) : SaveOutcome
  deriving DecidableEq, Repr

/-- Whether the batch insert itself failed. -/
def SaveOutcome.isCreateErr : SaveOutcome → Bool
  | .createErr _ => true
  | _ => false

/-- The per-phase enable flags resolved from the scan template. -/
structure ScanConfigFlags where
  subfinderEnabled : Bool
  urlScanEnabled : Bool
  techDetectEnabled : Bool
  screenshotEnabled : Bool
  deriving DecidableEq, Repr

/-- Outcomes of every external provider and fallible persistence step a
scan performs. -/
structure ScanOracle where
  subfinder : Except String (List String)
  verify : Except String (List String)
  save : SaveOutcome
  crawlResults : List KatanaInput
  urlScanErr : Option String
  techFetchErrs : List String
  techScanErr : Option String
  shot : ShotOracle

/-- Observable outcome of one scan run. -/
structure ScanOutcome where
  reachedEnd : Bool
  finalStatus : String
  errors : List String
  candidates : List String
  active : List String
  savedMap : List (String × Nat)
  dbAfterSave : DB
  db : DB
  shots : List ShotOutcome

/-- Intermediate result of the save phase. -/
structure SavePhase where
  db : DB
  savedMap : List (String × Nat)
  errors : List String

/-- The save phase: persist a non-empty active set through
`saveSubdomains`; a failed batch insert leaves the store untouched, a
failed id re-read keeps the inserts; both append a save error and yield an
empty hostname→id map. -/
def savePhaseRun (db0 : DB) (rootDomainID scanID now : Nat) (o : ScanOracle)
    (errs : List String) (active : List String) : SavePhase :=
  if active.isEmpty then ⟨db0, [], errs⟩
  else
    match o.save with
    | .ok =>
      let r := saveSubdomains db0 rootDomainID scanID now active
      ⟨r.1, r.2, errs⟩
    | .createErr e => ⟨db0, [], errs ++ ["Subdomain Save/ID Fetch: " ++ e]⟩
    | .fetchErr e =>
      ⟨(subdomainBatch rootDomainID scanID now active).foldl
         insertSubdomainIgnore db0, [],
       errs ++ ["Subdomain Save/ID Fetch: " ++ e]⟩

/-- The pipeline from the save phase to the final status update, shared by
both scan kinds: save the active set, fan out screenshots, run the URL
scan, aggregate the technology-phase errors, and derive the terminal
status from the accumulated error list. -/
def scanAfterDiscovery (db0 : DB) (targetHost : String)
    (rootDomainID scanID now : Nat) (cfg : ScanConfigFlags) (o : ScanOracle)
    (errs : List String) (candidates active : List String) : ScanOutcome :=
  let sv := savePhaseRun db0 rootDomainID scanID now o errs active
  let shots :=
    if cfg.screenshotEnabled then sv.savedMap.map (fun _ => TakeScreenshot o.shot)
    else []
  -- the URL scan receives `targetHost` as its root-domain scope string,
  -- exactly as at the `ExecuteURLScan` call site in the source
  let u : DB × List String :=
    if cfg.urlScanEnabled then
      (ExecuteURLScan sv.db targetHost rootDomainID scanID now sv.savedMap
         o.crawlResults,
       sv.errors ++ (match o.urlScanErr with
         | some e => ["URL Scan: " ++ e]
         | none => []))
    else (sv.db, sv.errors)
  let errs2 :=
    if cfg.techDetectEnabled then
      u.2 ++ o.techFetchErrs ++ (match o.techScanErr with
        | some e => ["Tech Detect: " ++ e]
        | none => [])
    else u.2
  { reachedEnd := true
    finalStatus := if errs2.isEmpty then "completed" else "failed"
    errors := errs2
    candidates := candidates
    active := active
    savedMap := sv.savedMap
    dbAfterSave := sv.db
    db := u.1
    shots := shots }

/-- The enumeration phase of a root-domain scan: a provider error is
collected and yields no hostnames; otherwise the provider's result set. -/
def subfinderPhase (cfg : ScanConfigFlags) (o : ScanOracle) :
    List String × List String :=
  if cfg.subfinderEnabled then
    match o.subfinder with
    | .error e => (["Subfinder: " ++ e], [])
    | .ok subs => ([], subs)
  else ([], [])

/-- The candidate set after enumeration: the root domain's own hostname is
added whenever the provider did not return it. -/
def candidateSet (targetHost : String) (cfg : ScanConfigFlags)
    (o : ScanOracle) : List String :=
  if (subfinderPhase cfg o).2.contains targetHost then (subfinderPhase cfg o).2
  else (subfinderPhase cfg o).2 ++ [targetHost]

/-- The responsive subset reported by the liveness provider (empty on a
verification error). -/
def verifiedSet (o : ScanOracle) : List String :=
  match o.verify with
  | .error _ => []
  | .ok l => l

/-- The errors accumulated by the discovery stage of a root-domain scan. -/
def discoveryErrors (cfg : ScanConfigFlags) (o : ScanOracle) : List String :=
  (subfinderPhase cfg o).1 ++
    (match o.verify with
     | .error e => ["Subdomain verification: " ++ e]
     | .ok _ => [])

/-- The active set after liveness verification: the root domain's own
hostname is re-added when it was a candidate but got filtered out. -/
def activeSet (targetHost : String) (cfg : ScanConfigFlags) (o : ScanOracle) :
    List String :=
  if (candidateSet targetHost cfg o).contains targetHost
      && !((verifiedSet o).contains targetHost) then
    verifiedSet o ++ [targetHost]
  else verifiedSet o

/-- `ExecuteSubdomainScan`: discovery and liveness for a root-domain scan
(with the apex hostname forced into both the candidate and the active
set), the single target for a subdomain scan, an immediate `failed` update
for an unknown scan kind, then the shared downstream pipeline. -/
def ExecuteSubdomainScan (db0 : DB) (targetHost scanType : String)
    (rootDomainID scanID now : Nat) (cfg : ScanConfigFlags) (o : ScanOracle) :
    ScanOutcome :=
  if scanType == "root_domain" then
    scanAfterDiscovery db0 targetHost rootDomainID scanID now cfg o
      (discoveryErrors cfg o) (candidateSet targetHost cfg o)
      (activeSet targetHost cfg o)
  else if scanType == "subdomain" then
    scanAfterDiscovery db0 targetHost rootDomainID scanID now cfg o
      [] [] [targetHost]
  else
    { reachedEnd := false, finalStatus := "failed", errors := []
      candidates := [], active := [], savedMap := []
      dbAfterSave := db0, db := db0, shots := [] }

/-! ## Concrete sample inputs used by witnesses and counterexamples -/

/-- A fully enabled-phases flag set with screenshots off. -/
def sampleFlags : ScanConfigFlags := ⟨true, true, true, false⟩

/-- An all-successful screenshot step oracle. -/
def sampleShot : ShotOracle := ⟨true, true, true, true⟩

/-- An all-successful scan oracle with empty provider results. -/
def sampleOracle : ScanOracle :=
  ⟨.ok [], .ok [], .ok, [], none, [], none, sampleShot⟩

/-- A scan oracle in which the enumeration provider failed. -/
def failingOracle : ScanOracle :=
  ⟨.error "timeout", .ok [], .ok, [], none, [], none, sampleShot⟩

/-- A successful in-scope crawl result on `app.example.com` (registrable
root `example.com`), as delivered to `processKatanaOutput`. -/
def inScopeCrawlResult : KatanaInput :=
  { hasRequest := true, hasResponse := true, statusCode := 200
    url := "https://app.example.com/login?user=a", method := "GET"
    contentType := "text/html"
    parsedURL := some ⟨"app.example.com", "/login", [("user", ["a"])]⟩
    psParse := some ⟨"example", "com"⟩ }

/-- The processed crawl result for `inScopeCrawlResult` under the true
root domain (used to exercise the persistence path). -/
def sampleUrlResult : UrlScanResult :=
  { hostname := "app.example.com"
    fullURL := "https://app.example.com/login?user=a"
    endpoint := { id := 0, subdomainID := 0, path := "/login", method := "GET"
                  statusCode := 200, contentType := "text/html"
                  discoveredAt := 0, scanID := some 7 }
    params := [{ id := 0, endpointID := 0, name := "user"
                 paramType := "query", discoveredAt := 0 }] }

/-- A store holding only the apex subdomain row of root domain 1. -/
def apexOnlyDB : DB :=
  { subdomains := [⟨1, 1, "example.com", true, 0, none⟩]
    endpoints := [], parameters := [], technologies := []
    subdomainTechs := [], nextID := 2 }

/-- A technology-phase oracle where only the creation of the `react`
technology row fails. -/
def reactFailsOracle : TechOracle :=
  ⟨true, true, true, true, true, fun _ => true, fun n => !(n == "react"),
   true, true⟩

/-- A fingerprinted batch detecting `react` and `nginx` on the apex. -/
def reactNginxEntries : List TechEntry :=
  [⟨"https://example.com", some "example.com", ["react", "nginx"]⟩]

/-- A technology-phase oracle whose transaction cannot even begin. -/
def beginFailsOracle : TechOracle :=
  ⟨false, true, true, true, true, fun _ => true, fun _ => true, true, true⟩

/-- A fetch oracle for the fingerprint loop: one URL refuses connections,
every other fetch detects `nginx`. -/
def sampleFetch (s : String) : Except String (List String) :=
  if s == "http://bad.example.com" then .error "connection refused"
  else .ok ["nginx"]

/-! ## Natural-key uniqueness (data-model invariants of §3) -/

/-- The subdomain natural keys `(hostname, rootDomainID)` of a store. -/
def subKeys (db : DB) : List (String × Nat) :=
  db.subdomains.map (fun r => (r.hostname, r.rootDomainID))

/-- The endpoint natural keys `(subdomainID, path, method)` of a store. -/
def epKeys (db : DB) : List (Nat × String × String) :=
  db.endpoints.map (fun e => (e.subdomainID, e.path, e.method))

/-- The parameter natural keys `(endpointID, name, paramType)` of a store. -/
def paramKeys (db : DB) : List (Nat × String × String) :=
  db.parameters.map (fun p => (p.endpointID, p.name, p.paramType))

/-- All three natural-key uniqueness invariants of the data model. -/
def naturalKeysUnique (db : DB) : Prop :=
  (subKeys db).Nodup ∧ (epKeys db).Nodup ∧ (paramKeys db).Nodup

instance (db : DB) : Decidable (naturalKeysUnique db) := by
  unfold naturalKeysUnique; infer_instance

/-- One full discovery-persistence run against a fixed root domain:
reconcile the active hostname set, then persist the re-crawled results
using the hostname→id map the reconciliation returned. -/
def discoveryRun (rootDomain : String) (rootDomainID scanID now : Nat)
    (active : List String) (results : List UrlScanResult) (db : DB) : DB :=
  saveURLScanResults (saveSubdomains db rootDomainID scanID now active).1
    rootDomain rootDomainID scanID now
    (saveSubdomains db rootDomainID scanID now active).2 results

/-! ## Helper lemmas -/

/-- The terminal status written by the shared downstream pipeline is
`failed` exactly when the accumulated error list is non-empty. -/
theorem scanAfterDiscovery_status_iff (db0 : DB) (t : String)
    (rdid sid now : Nat) (cfg : ScanConfigFlags) (o : ScanOracle)
    (errs cand act : List String) :
    (scanAfterDiscovery db0 t rdid sid now cfg o errs cand act).finalStatus
        = "failed"
      ↔ (scanAfterDiscovery db0 t rdid sid now cfg o errs cand act).errors
        ≠ [] := by
  have hdef :
      (scanAfterDiscovery db0 t rdid sid now cfg o errs cand act).finalStatus
        = (if (scanAfterDiscovery db0 t rdid sid now cfg o errs cand
              act).errors.isEmpty then "completed" else "failed") := rfl
  rw [hdef]
  cases hE : (scanAfterDiscovery db0 t rdid sid now cfg o errs cand
      act).errors <;> simp [hE]

/-- `techLoop` distributes over list append. -/
theorem techLoop_append (fetch : String → Except String (List String))
    (l1 l2 : List String) :
    techLoop fetch (l1 ++ l2)
      = ((techLoop fetch l1).1 ++ (techLoop fetch l2).1,
         (techLoop fetch l1).2 ++ (techLoop fetch l2).2) := by
  induction l1 with
  | nil => simp [techLoop]
  | cons u us ih =>
    simp only [List.cons_append, techLoop]
    cases h : fetch u <;> simp [h, ih] <;> split <;> simp

/-! ## Claim theorems -/

/-- Claim C1: for every scan that reaches the end of all phases, the final
status written for the scan is `failed` exactly when the accumulated
per-scan error list is non-empty at that point, and `completed`
otherwise. -/
theorem scan_final_status_iff_errors (db0 : DB) (targetHost scanType : String)
    (rdid sid now : Nat) (cfg : ScanConfigFlags) (o : ScanOracle)
    (h : (ExecuteSubdomainScan db0 targetHost scanType rdid sid now cfg
      o).reachedEnd = true) :
    (ExecuteSubdomainScan db0 targetHost scanType rdid sid now cfg
        o).finalStatus = "failed"
      ↔ (ExecuteSubdomainScan db0 targetHost scanType rdid sid now cfg
        o).errors ≠ [] := by
  by_cases h1 : (scanType == "root_domain") = true
  · simp only [ExecuteSubdomainScan, h1, if_true]
    exact scanAfterDiscovery_status_iff ..
  · by_cases h2 : (scanType == "subdomain") = true
    · simp only [ExecuteSubdomainScan, h1, h2, if_true, if_false]
      exact scanAfterDiscovery_status_iff ..
    · exfalso
      simp only [ExecuteSubdomainScan, h1, h2, if_false] at h
      exact Bool.false_ne_true h

/-- Witness for C1: a concrete scan with a failed enumeration provider
reaches the end of all phases; the iff instantiates there. -/
theorem scan_final_status_iff_errors_witness :
    (ExecuteSubdomainScan DB.empty "example.com" "root_domain" 1 1 0
        sampleFlags failingOracle).reachedEnd = true
    ∧ ((ExecuteSubdomainScan DB.empty "example.com" "root_domain" 1 1 0
          sampleFlags failingOracle).finalStatus = "failed"
        ↔ (ExecuteSubdomainScan DB.empty "example.com" "root_domain" 1 1 0
          sampleFlags failingOracle).errors ≠ []) :=
  ⟨by decide,
   scan_final_status_iff_errors DB.empty "example.com" "root_domain" 1 1 0
     sampleFlags failingOracle (by decide)⟩

/-- Claim C8: in the fingerprint phase, a fetch failure for one URL
appends an error entry and skips only that URL: the remaining URLs
produce exactly the results they produce without it, those results are
passed to persistence unchanged, and the failing URL contributes no
technology results. -/
theorem tech_fetch_failure_isolated (db : DB) (pre post : List String)
    (u e : String) (fetch : String → Except String (List String))
    (hostOf : String → Option String) (rootDomainName : String)
    (rdid scanID now : Nat) (o : TechOracle)
    (hu : fetch u = .error e) :
    (techLoop fetch (pre ++ u :: post)).1 = (techLoop fetch (pre ++ post)).1
    ∧ (techLoop fetch (pre ++ u :: post)).2
      = (techLoop fetch pre).2
          ++ fetchErrEntry u e :: (techLoop fetch post).2
    ∧ (ExecuteTechScan db (pre ++ u :: post) fetch hostOf rootDomainName
        rdid scanID now o).1
      = (ExecuteTechScan db (pre ++ post) fetch hostOf rootDomainName
        rdid scanID now o).1 := by
  have hstep : techLoop fetch (u :: post)
      = ((techLoop fetch post).1,
         fetchErrEntry u e :: (techLoop fetch post).2) := by
    simp [techLoop, hu]
  refine ⟨?_, ?_, ?_⟩
  · rw [techLoop_append fetch pre (u :: post),
      techLoop_append fetch pre post, hstep]
  · rw [techLoop_append fetch pre (u :: post), hstep]
  · simp only [ExecuteTechScan]
    rw [techLoop_append fetch pre (u :: post),
      techLoop_append fetch pre post, hstep]

/-- Witness for C8: a connection-refused URL in the middle of a concrete
batch leaves the other URLs' results and their persistence unchanged. -/
theorem tech_fetch_failure_isolated_witness :
    sampleFetch "http://bad.example.com" = .error "connection refused"
    ∧ (techLoop sampleFetch
        ["http://example.com", "http://bad.example.com", "http://a.example.com"]).1
      = (techLoop sampleFetch ["http://example.com", "http://a.example.com"]).1 :=
  ⟨rfl,
   (tech_fetch_failure_isolated DB.empty ["http://example.com"]
     ["http://a.example.com"] "http://bad.example.com" "connection refused"
     sampleFetch (fun _ => none) "example.com" 1 1 0 reactFailsOracle
     rfl).1⟩

/-- Claim C10: `TakeScreenshot` returns an error exactly when the per-scan
screenshot directory cannot be created; every later failure yields a nil
return. -/
theorem takeScreenshot_error_iff_mkdir (o : ShotOracle) :
    (TakeScreenshot o).result.isSome = true ↔ o.mkdirOK = false := by
  rcases o with ⟨m, c, w, d⟩
  cases m <;> cases c <;> cases w <;> cases d <;> decide

/-- Claim C9: any capture-engine, file-write or metadata-insert error makes
`TakeScreenshot` return success with no `Screenshot` row recorded, and
screenshot outcomes never reach the owning scan's error list or change its
terminal status. -/
theorem screenshot_failures_nonfatal (o : ShotOracle) (db0 : DB)
    (targetHost scanType : String) (rdid sid now : Nat)
    (cfg : ScanConfigFlags) (base : ScanOracle) (sh1 sh2 : ShotOracle)
    (hm : o.mkdirOK = true)
    (hf : o.captureOK = false ∨ o.writeOK = false ∨ o.dbInsertOK = false) :
    (TakeScreenshot o).result = none
    ∧ (TakeScreenshot o).rowRecorded = false
    ∧ (ExecuteSubdomainScan db0 targetHost scanType rdid sid now cfg
        { base with shot := sh1 }).errors
      = (ExecuteSubdomainScan db0 targetHost scanType rdid sid now cfg
        { base with shot := sh2 }).errors
    ∧ (ExecuteSubdomainScan db0 targetHost scanType rdid sid now cfg
        { base with shot := sh1 }).finalStatus
      = (ExecuteSubdomainScan db0 targetHost scanType rdid sid now cfg
        { base with shot := sh2 }).finalStatus := by
  have hshot : (TakeScreenshot o).result = none
      ∧ (TakeScreenshot o).rowRecorded = false := by
    rcases o with ⟨m, c, w, d⟩
    cases m <;> cases c <;> cases w <;> cases d <;> simp_all [TakeScreenshot]
  refine ⟨hshot.1, hshot.2, ?_, ?_⟩ <;>
  · by_cases h1 : (scanType == "root_domain") = true
    · simp only [ExecuteSubdomainScan, h1, if_true]; rfl
    · by_cases h2 : (scanType == "subdomain") = true
      · simp only [ExecuteSubdomainScan, h1, h2, if_true, if_false]; rfl
      · simp only [ExecuteSubdomainScan, h1, h2, if_false]; rfl

/-- Witness for C9: a concrete capture failure, and two concrete scans
differing only in their screenshot oracle. -/
theorem screenshot_failures_nonfatal_witness :
    (TakeScreenshot ⟨true, false, true, true⟩).result = none
    ∧ (TakeScreenshot ⟨true, false, true, true⟩).rowRecorded = false
    ∧ (ExecuteSubdomainScan DB.empty "example.com" "root_domain" 1 1 0
        sampleFlags { sampleOracle with shot := ⟨true, false, true, true⟩ }).errors
      = (ExecuteSubdomainScan DB.empty "example.com" "root_domain" 1 1 0
        sampleFlags { sampleOracle with shot := sampleShot }).errors
    ∧ (ExecuteSubdomainScan DB.empty "example.com" "root_domain" 1 1 0
        sampleFlags { sampleOracle with shot := ⟨true, false, true, true⟩ }).finalStatus
      = (ExecuteSubdomainScan DB.empty "example.com" "root_domain" 1 1 0
        sampleFlags { sampleOracle with shot := sampleShot }).finalStatus :=
  screenshot_failures_nonfatal ⟨true, false, true, true⟩ DB.empty
    "example.com" "root_domain" 1 1 0 sampleFlags sampleOracle
    ⟨true, false, true, true⟩ sampleShot rfl (Or.inl rfl)

/-- Claim C2 (code evaluation): in a subdomain-targeted scan the scope
check receives the target subdomain's hostname, not the scan's root
domain: a crawl result on `app.example.com`, whose registrable root
`example.com` equals the scan's root domain, is rejected by
`processKatanaOutput` and the scan persists no endpoint for it, although
the same result passes the scope check against the root domain itself. -/
theorem subdomain_scan_scope_drops_in_scope_result :
    hostRootOf ⟨"example", "com"⟩ "app.example.com" = "example.com"
    ∧ processKatanaOutput "app.example.com" 7 0 inScopeCrawlResult = none
    ∧ (processKatanaOutput "example.com" 7 0 inScopeCrawlResult).isSome = true
    ∧ (ExecuteSubdomainScan DB.empty "app.example.com" "subdomain" 1 7 0
        sampleFlags
        { sampleOracle with crawlResults := [inScopeCrawlResult] }).db.endpoints
      = [] := by
  refine ⟨by decide, by decide, by decide, by decide⟩

/-! ### Conflict-ignoring subdomain insert lemmas -/

/-- Conflict-ignoring inserts only append: stored rows stay stored. -/
theorem insertSubdomainIgnore_mono (db : DB) (b r : Subdomain)
    (h : r ∈ db.subdomains) : r ∈ (insertSubdomainIgnore db b).subdomains := by
  unfold insertSubdomainIgnore
  split
  · exact h
  · exact List.mem_append_left _ h

/-- Stored rows survive a whole conflict-ignoring batch insert. -/
theorem foldl_insertSubdomainIgnore_mono (batch : List Subdomain) (db : DB)
    (r : Subdomain) (h : r ∈ db.subdomains) :
    r ∈ (batch.foldl insertSubdomainIgnore db).subdomains := by
  induction batch generalizing db with
  | nil => exact h
  | cons b bs ih =>
    rw [List.foldl_cons]
    exact ih _ (insertSubdomainIgnore_mono db b r h)

/-- After a conflict-ignoring insert, some row carries the inserted key. -/
theorem insertSubdomainIgnore_key (db : DB) (b : Subdomain) :
    ∃ r, r ∈ (insertSubdomainIgnore db b).subdomains
      ∧ r.hostname = b.hostname ∧ r.rootDomainID = b.rootDomainID := by
  unfold insertSubdomainIgnore
  split
  case isTrue hc =>
    rcases List.any_eq_true.mp hc with ⟨r, hr, hp⟩
    unfold subdomainKeyMatch at hp
    simp only [Bool.and_eq_true, beq_iff_eq] at hp
    exact ⟨r, hr, hp.1, hp.2⟩
  case isFalse hc =>
    exact ⟨{ b with id := db.nextID },
      List.mem_append_right _ (List.mem_singleton_self _), rfl, rfl⟩

/-- A key present in the batch is present in the store after the fold. -/
theorem foldl_insertSubdomainIgnore_key (hn : String) (rd : Nat) :
    ∀ (batch : List Subdomain) (db : DB),
      (∃ b, b ∈ batch ∧ b.hostname = hn ∧ b.rootDomainID = rd) →
      ∃ r, r ∈ (batch.foldl insertSubdomainIgnore db).subdomains
        ∧ r.hostname = hn ∧ r.rootDomainID = rd := by
  intro batch
  induction batch with
  | nil =>
    intro db hb
    rcases hb with ⟨b, hb0, _⟩
    cases hb0
  | cons b bs ih =>
    intro db hb
    rw [List.foldl_cons]
    rcases hb with ⟨c, hc, h1, h2⟩
    rcases List.mem_cons.mp hc with rfl | hcs
    · rcases insertSubdomainIgnore_key db c with ⟨r, hr, hr1, hr2⟩
      exact ⟨r, foldl_insertSubdomainIgnore_mono bs _ r hr,
        hr1.trans h1, hr2.trans h2⟩
    · exact ih _ ⟨c, hcs, h1, h2⟩

/-- Rows reachable after a conflict-ignoring batch insert: either they were
already stored or their hostname comes from the batch. -/
theorem mem_foldl_insertSubdomainIgnore (batch : List Subdomain) (db : DB)
    (r : Subdomain)
    (h : r ∈ (batch.foldl insertSubdomainIgnore db).subdomains) :
    r ∈ db.subdomains ∨ ∃ b, b ∈ batch ∧ r.hostname = b.hostname := by
  induction batch generalizing db with
  | nil => exact Or.inl h
  | cons b bs ih =>
    rw [List.foldl_cons] at h
    rcases ih (insertSubdomainIgnore db b) h with h2 | ⟨b2, hb2, he⟩
    · unfold insertSubdomainIgnore at h2
      by_cases hc : db.subdomains.any (subdomainKeyMatch b) = true
      · rw [if_pos hc] at h2
        exact Or.inl h2
      · rw [if_neg hc] at h2
        rcases List.mem_append.mp h2 with h2 | h2
        · exact Or.inl h2
        · rcases List.mem_singleton.mp h2 with rfl
          exact Or.inr ⟨b, List.mem_cons_self b bs, rfl⟩
    · exact Or.inr ⟨b2, List.mem_cons_of_mem b hb2, he⟩

/-- The hostnames of the batch built by `saveSubdomains`. -/
theorem subdomainBatch_hostnames (rdid scanID now : Nat) (subs : List String)
    (t : String) :
    t ∈ (subdomainBatch rdid scanID now subs).map (fun r => r.hostname)
      ↔ t ∈ subs ∧ isIPAddress t = false := by
  unfold subdomainBatch
  rw [List.map_map]
  simp [List.mem_map, List.mem_filter, Bool.not_eq_true']

/-- A non-IP hostname of the active set produces a batch row keyed to it. -/
theorem subdomainBatch_mem_target (rdid scanID now : Nat) (subs : List String)
    (t : String) (ht : t ∈ subs) (hip : isIPAddress t = false) :
    ∃ b, b ∈ subdomainBatch rdid scanID now subs
      ∧ b.hostname = t ∧ b.rootDomainID = rdid := by
  refine ⟨{ id := 0, rootDomainID := rdid, hostname := t, isActive := true
            discoveredAt := now, scanID := some scanID }, ?_, rfl, rfl⟩
  unfold subdomainBatch
  exact List.mem_map.mpr ⟨t, List.mem_filter.mpr ⟨ht, by simp [hip]⟩, rfl⟩

/-- Every row stored by `saveSubdomains` is pre-existing or carries a
non-IP hostname from the active set. -/
theorem saveSubdomains_mem (db : DB) (rdid scanID now : Nat)
    (subs : List String) (r : Subdomain)
    (h : r ∈ (saveSubdomains db rdid scanID now subs).1.subdomains) :
    r ∈ db.subdomains
    ∨ (r.hostname ∈ subs ∧ isIPAddress r.hostname = false) := by
  cases subs with
  | nil => exact Or.inl h
  | cons x xs =>
    have h2 : r ∈ ((subdomainBatch rdid scanID now (x :: xs)).foldl
        insertSubdomainIgnore db).subdomains := h
    rcases mem_foldl_insertSubdomainIgnore _ _ _ h2 with h3 | ⟨b, hb, he⟩
    · exact Or.inl h3
    · right
      have hmem : b.hostname ∈ (subdomainBatch rdid scanID now
          (x :: xs)).map (fun r2 => r2.hostname) :=
        List.mem_map.mpr ⟨b, hb, rfl⟩
      rw [he]
      exact (subdomainBatch_hostnames rdid scanID now (x :: xs)
        b.hostname).mp hmem

/-- Claim C7: a string of the active set passed to `saveSubdomains` joins
the batch of Subdomain rows to persist exactly when it does not parse as a
valid IPv4/IPv6 address, and every row the call stores is either
pre-existing or carries a non-IP hostname from the set. -/
theorem saveSubdomains_ip_filter (rdid scanID now : Nat) (subs : List String)
    (s : String) :
    (s ∈ (subdomainBatch rdid scanID now subs).map (fun r => r.hostname)
      ↔ s ∈ subs ∧ isIPAddress s = false)
    ∧ (∀ db r, r ∈ (saveSubdomains db rdid scanID now subs).1.subdomains →
        r ∈ db.subdomains
        ∨ (r.hostname ∈ subs ∧ isIPAddress r.hostname = false)) :=
  ⟨subdomainBatch_hostnames rdid scanID now subs s,
   fun db r h => saveSubdomains_mem db rdid scanID now subs r h⟩

/-- Witness for C7: `1.2.3.4` is excluded from a concrete batch while
`example.com` enters it, and the stored row carries a non-IP hostname. -/
theorem saveSubdomains_ip_filter_witness :
    (¬ ("1.2.3.4" ∈ (subdomainBatch 1 7 0 ["example.com", "1.2.3.4"]).map
        (fun r => r.hostname))
      ∧ "example.com" ∈ (subdomainBatch 1 7 0
        ["example.com", "1.2.3.4"]).map (fun r => r.hostname))
    ∧ (Subdomain.mk 1 1 "example.com" true 0 (some 7)
        ∈ (saveSubdomains DB.empty 1 7 0 ["example.com", "1.2.3.4"]).1.subdomains
      ∧ ((Subdomain.mk 1 1 "example.com" true 0 (some 7)) ∈ DB.empty.subdomains
        ∨ ((Subdomain.mk 1 1 "example.com" true 0 (some 7)).hostname
              ∈ ["example.com", "1.2.3.4"]
            ∧ isIPAddress
              (Subdomain.mk 1 1 "example.com" true 0 (some 7)).hostname
              = false))) :=
  ⟨⟨fun h => by
      have := (saveSubdomains_ip_filter 1 7 0 ["example.com", "1.2.3.4"]
        "1.2.3.4").1.mp h
      exact absurd this.2 (by decide),
    by decide⟩,
   ⟨by decide,
    (saveSubdomains_ip_filter 1 7 0 ["example.com", "1.2.3.4"]
      "example.com").2 DB.empty _ (by decide)⟩⟩

/-! ### Apex retention lemmas -/

/-- The scan target is always a member of its candidate set. -/
theorem mem_candidateSet (t : String) (cfg : ScanConfigFlags)
    (o : ScanOracle) : t ∈ candidateSet t cfg o := by
  unfold candidateSet
  split
  case isTrue hc => exact List.mem_of_elem_eq_true hc
  case isFalse hc =>
    exact List.mem_append_right _ (List.mem_singleton_self t)

/-- The scan target is always a member of its active set. -/
theorem mem_activeSet (t : String) (cfg : ScanConfigFlags) (o : ScanOracle) :
    t ∈ activeSet t cfg o := by
  unfold activeSet
  split
  case isTrue hc =>
    exact List.mem_append_right _ (List.mem_singleton_self t)
  case isFalse hc =>
    have hcand : (candidateSet t cfg o).contains t = true :=
      List.elem_eq_true_of_mem (mem_candidateSet t cfg o)
    simp only [hcand, Bool.true_and, Bool.not_eq_true',
      Bool.not_eq_false] at hc
    exact List.mem_of_elem_eq_true hc

/-- When the batch insert did not fail, the save phase leaves a Subdomain
row for every non-IP member of the active set. -/
theorem savePhaseRun_apex_row (db0 : DB) (rdid sid now : Nat)
    (o : ScanOracle) (errs : List String) (act : List String) (t : String)
    (hact : t ∈ act) (hip : isIPAddress t = false)
    (hsave : o.save.isCreateErr = false) :
    ∃ r, r ∈ (savePhaseRun db0 rdid sid now o errs act).db.subdomains
      ∧ r.hostname = t ∧ r.rootDomainID = rdid := by
  cases act with
  | nil => cases hact
  | cons a as =>
    have hb := subdomainBatch_mem_target rdid sid now (a :: as) t hact hip
    cases hs : o.save with
    | ok =>
      have hdb : (savePhaseRun db0 rdid sid now o errs (a :: as)).db
          = (subdomainBatch rdid sid now (a :: as)).foldl
            insertSubdomainIgnore db0 := by
        unfold savePhaseRun
        rw [hs]
        rfl
      rw [hdb]
      exact foldl_insertSubdomainIgnore_key t rdid _ db0 hb
    | createErr e =>
      rw [hs] at hsave
      exact absurd hsave (by simp [SaveOutcome.isCreateErr])
    | fetchErr e =>
      have hdb : (savePhaseRun db0 rdid sid now o errs (a :: as)).db
          = (subdomainBatch rdid sid now (a :: as)).foldl
            insertSubdomainIgnore db0 := by
        unfold savePhaseRun
        rw [hs]
        rfl
      rw [hdb]
      exact foldl_insertSubdomainIgnore_key t rdid _ db0 hb

/-- Claim C4: in every root-domain scan, the root domain's own hostname is
in the candidate set after enumeration and in the active set after
liveness verification (whatever the providers returned), and after
reconciliation — whenever the batch insert itself did not fail — a
Subdomain row with that hostname exists for the root domain. -/
theorem apex_retention (db0 : DB) (targetHost : String)
    (rdid scanID now : Nat) (cfg : ScanConfigFlags) (o : ScanOracle)
    (hip : isIPAddress targetHost = false)
    (hsave : o.save.isCreateErr = false) :
    targetHost ∈ (ExecuteSubdomainScan db0 targetHost "root_domain" rdid
      scanID now cfg o).candidates
    ∧ targetHost ∈ (ExecuteSubdomainScan db0 targetHost "root_domain" rdid
      scanID now cfg o).active
    ∧ ∃ r, r ∈ (ExecuteSubdomainScan db0 targetHost "root_domain" rdid
        scanID now cfg o).dbAfterSave.subdomains
        ∧ r.hostname = targetHost ∧ r.rootDomainID = rdid := by
  have hc : (ExecuteSubdomainScan db0 targetHost "root_domain" rdid scanID
      now cfg o).candidates = candidateSet targetHost cfg o := rfl
  have ha : (ExecuteSubdomainScan db0 targetHost "root_domain" rdid scanID
      now cfg o).active = activeSet targetHost cfg o := rfl
  have hdb : (ExecuteSubdomainScan db0 targetHost "root_domain" rdid scanID
      now cfg o).dbAfterSave
      = (savePhaseRun db0 rdid scanID now o (discoveryErrors cfg o)
        (activeSet targetHost cfg o)).db := rfl
  rw [hc, ha, hdb]
  exact ⟨mem_candidateSet targetHost cfg o, mem_activeSet targetHost cfg o,
    savePhaseRun_apex_row db0 rdid scanID now o (discoveryErrors cfg o)
      (activeSet targetHost cfg o) targetHost
      (mem_activeSet targetHost cfg o) hip hsave⟩

/-- Witness for C4: a concrete scan whose providers return nothing still
retains `example.com` in both sets and as a stored row. -/
theorem apex_retention_witness :
    isIPAddress "example.com" = false
    ∧ sampleOracle.save.isCreateErr = false
    ∧ "example.com" ∈ (ExecuteSubdomainScan DB.empty "example.com"
        "root_domain" 1 1 0 sampleFlags sampleOracle).candidates
    ∧ "example.com" ∈ (ExecuteSubdomainScan DB.empty "example.com"
        "root_domain" 1 1 0 sampleFlags sampleOracle).active
    ∧ ∃ r, r ∈ (ExecuteSubdomainScan DB.empty "example.com" "root_domain"
          1 1 0 sampleFlags sampleOracle).dbAfterSave.subdomains
        ∧ r.hostname = "example.com" ∧ r.rootDomainID = 1 := by
  have h := apex_retention DB.empty "example.com" 1 1 0 sampleFlags
    sampleOracle (by decide) (by decide)
  exact ⟨by decide, by decide, h.1, h.2.1, h.2.2⟩

/-! ### Fingerprint-phase transaction lemmas (C5) -/

/-- A reported error at the end of the transaction publishes nothing. -/
theorem techFinish_error (db0 : DB) (o : TechOracle) (st : TechLoopState)
    (e : String) (h : (techFinish db0 o st).2 = some e) :
    (techFinish db0 o st).1 = db0 := by
  unfold techFinish at h ⊢
  by_cases h1 : st.joins.isEmpty = true
  · rw [if_pos h1] at h ⊢
    by_cases h2 : (!o.commitOK) = true
    · rw [if_pos h2]
    · rw [if_neg h2] at h
      exact absurd h (by simp)
  · rw [if_neg h1] at h ⊢
    by_cases h2 : (!o.batchInsertOK) = true
    · rw [if_pos h2]
    · rw [if_neg h2] at h ⊢
      by_cases h3 : (!o.commitOK) = true
      · rw [if_pos h3]
      · rw [if_neg h3] at h
        exact absurd h (by simp)

/-- Claim C5 (amended): the batch is written inside a single transaction
committed once at the end, and every error the phase reports — begin,
root-domain fetch, root-subdomain query or creation, association batch
insert, or commit failure — leaves the technology tables exactly as
before; an individual technology find-or-create failure instead skips
only that technology while the rest of the batch still commits. -/
theorem saveTechnologies_reported_error_rollback (db : DB)
    (rootDomainName : String) (rdid scanID now : Nat)
    (entries : List TechEntry) (o : TechOracle) (e : String)
    (h : (saveTechnologies db rootDomainName rdid scanID now entries o).2
      = some e) :
    (saveTechnologies db rootDomainName rdid scanID now entries o).1 = db := by
  unfold saveTechnologies at h ⊢
  by_cases h1 : entries.isEmpty = true
  · rw [if_pos h1] at h
    exact absurd h (by simp)
  · rw [if_neg h1] at h ⊢
    by_cases h2 : (!o.beginOK) = true
    · rw [if_pos h2]
    · rw [if_neg h2] at h ⊢
      by_cases h3 : (!o.fetchRootOK) = true
      · rw [if_pos h3]
      · rw [if_neg h3] at h ⊢
        by_cases h4 : (!o.rootSubQueryOK) = true
        · rw [if_pos h4]
        · rw [if_neg h4] at h ⊢
          by_cases h5 :
              (!(ensureRootSub db rootDomainName rdid scanID now o).2.2)
                = true
          · rw [if_pos h5]
          · rw [if_neg h5] at h ⊢
            exact techFinish_error db o _ e h

/-- Witness for the amended C5: a failed transaction begin reports an
error and leaves a concrete store untouched. -/
theorem saveTechnologies_reported_error_rollback_witness :
    (saveTechnologies apexOnlyDB "example.com" 1 1 0 reactNginxEntries
        beginFailsOracle).2 = some "failed to begin transaction"
    ∧ (saveTechnologies apexOnlyDB "example.com" 1 1 0 reactNginxEntries
        beginFailsOracle).1 = apexOnlyDB :=
  ⟨rfl,
   saveTechnologies_reported_error_rollback apexOnlyDB "example.com" 1 1 0
     reactNginxEntries beginFailsOracle "failed to begin transaction" rfl⟩

/-- Counterexample to C5 as stated: a persistence error during the batch
(the creation of the `react` technology row fails) does not roll the
transaction back — the phase reports success and the technology tables
differ from their prior state (the `nginx` rows were committed). -/
theorem saveTechnologies_partial_commit_counterexample :
    reactFailsOracle.techCreateOK "react" = false
    ∧ (saveTechnologies apexOnlyDB "example.com" 1 1 0 reactNginxEntries
        reactFailsOracle).2 = none
    ∧ (saveTechnologies apexOnlyDB "example.com" 1 1 0 reactNginxEntries
        reactFailsOracle).1 ≠ apexOnlyDB
    ∧ (saveTechnologies apexOnlyDB "example.com" 1 1 0 reactNginxEntries
        reactFailsOracle).1.technologies = [⟨2, "nginx"⟩] :=
  ⟨rfl, by decide, by decide, by decide⟩

/-! ### Crawl-phase zero-identifier safety lemmas (C6) -/

/-- A resolved subdomain id is never the zero/unset value. -/
theorem resolveSubID_ne_zero (m s : List (String × Nat)) (host : String)
    (id : Nat) (hr : resolveSubID m s host = some id) : id ≠ 0 := by
  have hfall : ∀ w, resolveFallback s host = some w → w ≠ 0 := by
    intro w hw
    unfold resolveFallback at hw
    split at hw
    · split at hw
      · simp_all
      · simp_all
    · simp_all
  unfold resolveSubID at hr
  split at hr
  · split at hr
    · simp_all
    · exact hfall id hr
  · exact hfall id hr

/-- The endpoint upsert does not touch the parameter table. -/
theorem upsertEndpoint_parameters (db : DB) (ep : Endpoint) :
    (upsertEndpoint db ep).1.parameters = db.parameters := by
  unfold upsertEndpoint
  rcases hf : db.endpoints.find? (endpointKeyMatch ep) with _ | e <;>
    simp [hf]

/-- The parameter upsert does not touch the endpoint table. -/
theorem upsertParameter_endpoints (db : DB) (p : Parameter) :
    (upsertParameter db p).endpoints = db.endpoints := by
  unfold upsertParameter
  rcases hf : db.parameters.find? (parameterKeyMatch p) with _ | q <;>
    simp [hf]

/-- Rows present after an endpoint upsert: previously stored or keyed to
the upserted endpoint's subdomain id. -/
theorem upsertEndpoint_mem (db : DB) (ep : Endpoint) (x : Endpoint)
    (hx : x ∈ (upsertEndpoint db ep).1.endpoints) :
    x ∈ db.endpoints ∨ x.subdomainID = ep.subdomainID := by
  unfold upsertEndpoint at hx
  rcases hf : db.endpoints.find? (endpointKeyMatch ep) with _ | e
  · rw [hf] at hx
    rcases List.mem_append.mp hx with h | h
    · exact Or.inl h
    · rcases List.mem_singleton.mp h with rfl
      exact Or.inr rfl
  · rw [hf] at hx
    rcases List.mem_map.mp hx with ⟨y, hy, hyx⟩
    unfold updateEndpointRow at hyx
    by_cases hc : endpointKeyMatch ep y = true
    · rw [if_pos hc] at hyx
      unfold endpointKeyMatch at hc
      simp only [Bool.and_eq_true, beq_iff_eq] at hc
      right
      rw [← hyx]
      exact hc.1.1
    · rw [if_neg hc] at hyx
      exact Or.inl (hyx ▸ hy)

/-- Rows present after a parameter upsert: previously stored or keyed to
the upserted parameter's endpoint id. -/
theorem upsertParameter_mem (db : DB) (p : Parameter) (x : Parameter)
    (hx : x ∈ (upsertParameter db p).parameters) :
    x ∈ db.parameters ∨ x.endpointID = p.endpointID := by
  unfold upsertParameter at hx
  rcases hf : db.parameters.find? (parameterKeyMatch p) with _ | q
  · rw [hf] at hx
    rcases List.mem_append.mp hx with h | h
    · exact Or.inl h
    · rcases List.mem_singleton.mp h with rfl
      exact Or.inr rfl
  · rw [hf] at hx
    rcases List.mem_map.mp hx with ⟨y, hy, hyx⟩
    unfold updateParameterRow at hyx
    by_cases hc : parameterKeyMatch p y = true
    · rw [if_pos hc] at hyx
      unfold parameterKeyMatch at hc
      simp only [Bool.and_eq_true, beq_iff_eq] at hc
      right
      rw [← hyx]
      exact hc.1.1
    · rw [if_neg hc] at hyx
      exact Or.inl (hyx ▸ hy)

/-- The parameter fold of one crawl row leaves the endpoint table alone. -/
theorem foldl_upsertParameter_endpoints (ps : List Parameter) (k : Nat) :
    ∀ d : DB,
      ((ps.foldl (fun d2 p => upsertParameter d2 { p with endpointID := k })
        d)).endpoints = d.endpoints := by
  induction ps with
  | nil => intro d; rfl
  | cons p ps ih =>
    intro d
    rw [List.foldl_cons, ih]
    exact upsertParameter_endpoints d { p with endpointID := k }

/-- Parameters present after the parameter fold of one crawl row:
previously stored or keyed to the given endpoint id. -/
theorem foldl_upsertParameter_mem (ps : List Parameter) (k : Nat) :
    ∀ (d : DB) (x : Parameter),
      x ∈ ((ps.foldl (fun d2 p => upsertParameter d2
        { p with endpointID := k }) d)).parameters →
      x ∈ d.parameters ∨ x.endpointID = k := by
  induction ps with
  | nil => intro d x hx; exact Or.inl hx
  | cons p ps ih =>
    intro d x hx
    rw [List.foldl_cons] at hx
    rcases ih _ x hx with h | h
    · exact upsertParameter_mem _ _ _ h
    · exact Or.inr h

/-- A crawl row whose hostname cannot be resolved to a non-zero subdomain
id is dropped without touching the store. -/
theorem persistRow_dropped (m s : List (String × Nat)) (db : DB)
    (row : CrawlRow) (hr : resolveSubID m s row.host = none) :
    persistRow m s db row = db := by
  unfold persistRow
  rw [hr]

/-- Endpoints present after persisting one resolved crawl row: previously
stored or keyed to the resolved subdomain id. -/
theorem persistResolved_endpoints_mem (db : DB) (row : CrawlRow) (sid : Nat)
    (x : Endpoint) (hx : x ∈ (persistResolved db row sid).endpoints) :
    x ∈ db.endpoints ∨ x.subdomainID = sid := by
  unfold persistResolved at hx
  by_cases hz : ((upsertEndpoint db (resolvedEndpoint row sid)).2 == 0)
      = true
  · rw [if_pos hz] at hx
    exact upsertEndpoint_mem _ _ _ hx
  · rw [if_neg hz] at hx
    rw [foldl_upsertParameter_endpoints] at hx
    exact upsertEndpoint_mem _ _ _ hx

/-- Endpoints present after persisting one crawl row: previously stored or
keyed to a non-zero subdomain id. -/
theorem persistRow_endpoints_mem (m s : List (String × Nat)) (db : DB)
    (row : CrawlRow) (x : Endpoint)
    (hx : x ∈ (persistRow m s db row).endpoints) :
    x ∈ db.endpoints ∨ x.subdomainID ≠ 0 := by
  rcases hr : resolveSubID m s row.host with _ | sid
  · rw [persistRow_dropped m s db row hr] at hx
    exact Or.inl hx
  · have hsid := resolveSubID_ne_zero m s row.host sid hr
    have hx2 : x ∈ (persistResolved db row sid).endpoints := by
      unfold persistRow at hx
      rw [hr] at hx
      exact hx
    rcases persistResolved_endpoints_mem db row sid x hx2 with h | h
    · exact Or.inl h
    · exact Or.inr (by rw [h]; exact hsid)

/-- Parameters present after persisting one crawl row: previously stored
or keyed to a non-zero endpoint id. -/
theorem persistRow_parameters_mem (m s : List (String × Nat)) (db : DB)
    (row : CrawlRow) (x : Parameter)
    (hx : x ∈ (persistRow m s db row).parameters) :
    x ∈ db.parameters ∨ x.endpointID ≠ 0 := by
  rcases hr : resolveSubID m s row.host with _ | sid
  · rw [persistRow_dropped m s db row hr] at hx
    exact Or.inl hx
  · have hx2 : x ∈ (persistResolved db row sid).parameters := by
      unfold persistRow at hx
      rw [hr] at hx
      exact hx
    unfold persistResolved at hx2
    by_cases hz : ((upsertEndpoint db (resolvedEndpoint row sid)).2 == 0)
        = true
    · rw [if_pos hz] at hx2
      rw [upsertEndpoint_parameters] at hx2
      exact Or.inl hx2
    · rw [if_neg hz] at hx2
      rcases foldl_upsertParameter_mem _ _ _ x hx2 with h | h
      · rw [upsertEndpoint_parameters] at h
        exact Or.inl h
      · refine Or.inr ?_
        rw [h]
        intro h0
        rw [h0] at hz
        exact hz (by decide)

/-- Endpoints present after persisting every buffered crawl row. -/
theorem foldl_persistRow_endpoints_mem (m s : List (String × Nat))
    (rows : List CrawlRow) :
    ∀ (db : DB) (x : Endpoint),
      x ∈ ((rows.foldl (persistRow m s) db)).endpoints →
      x ∈ db.endpoints ∨ x.subdomainID ≠ 0 := by
  induction rows with
  | nil => intro db x hx; exact Or.inl hx
  | cons row rows ih =>
    intro db x hx
    rw [List.foldl_cons] at hx
    rcases ih _ x hx with h | h
    · exact persistRow_endpoints_mem m s db row x h
    · exact Or.inr h

/-- Parameters present after persisting every buffered crawl row. -/
theorem foldl_persistRow_parameters_mem (m s : List (String × Nat))
    (rows : List CrawlRow) :
    ∀ (db : DB) (x : Parameter),
      x ∈ ((rows.foldl (persistRow m s) db)).parameters →
      x ∈ db.parameters ∨ x.endpointID ≠ 0 := by
  induction rows with
  | nil => intro db x hx; exact Or.inl hx
  | cons row rows ih =>
    intro db x hx
    rw [List.foldl_cons] at hx
    rcases ih _ x hx with h | h
    · exact persistRow_parameters_mem m s db row x h
    · exact Or.inr h

/-- The crawl-phase subdomain upsert does not touch endpoint or parameter
tables. -/
theorem upsertSubdomainUpdate_tables (db : DB) (row : Subdomain) :
    (upsertSubdomainUpdate db row).endpoints = db.endpoints
    ∧ (upsertSubdomainUpdate db row).parameters = db.parameters := by
  unfold upsertSubdomainUpdate
  split <;> exact ⟨rfl, rfl⟩

/-- Neither does the whole batch of crawl-phase subdomain upserts. -/
theorem foldl_upsertSubdomainUpdate_tables (batch : List Subdomain) :
    ∀ db : DB,
      (batch.foldl upsertSubdomainUpdate db).endpoints = db.endpoints
      ∧ (batch.foldl upsertSubdomainUpdate db).parameters = db.parameters := by
  induction batch with
  | nil => intro db; exact ⟨rfl, rfl⟩
  | cons b bs ih =>
    intro db
    rw [List.foldl_cons]
    rcases ih (upsertSubdomainUpdate db b) with ⟨h1, h2⟩
    rcases upsertSubdomainUpdate_tables db b with ⟨h3, h4⟩
    exact ⟨h1.trans h3, h2.trans h4⟩

/-- Claim C6: no Endpoint or Parameter write of the crawl phase ever uses
a zero/unset identifier — every endpoint row not previously stored carries
a non-zero subdomain id, every parameter row not previously stored carries
a non-zero endpoint id, and a buffered result whose hostname cannot be
resolved to a non-zero id is dropped without a write. -/
theorem crawl_zero_id_safety (db : DB) (rootDomain : String)
    (rootDomainID scanID now : Nat) (initialSync : List (String × Nat))
    (results : List UrlScanResult) :
    (∀ x, x ∈ (saveURLScanResults db rootDomain rootDomainID scanID now
        initialSync results).endpoints →
      x ∈ db.endpoints ∨ x.subdomainID ≠ 0)
    ∧ (∀ x, x ∈ (saveURLScanResults db rootDomain rootDomainID scanID now
        initialSync results).parameters →
      x ∈ db.parameters ∨ x.endpointID ≠ 0)
    ∧ (∀ (m s : List (String × Nat)) (row : CrawlRow),
        resolveSubID m s row.host = none → persistRow m s db row = db) := by
  refine ⟨?_, ?_, fun m s row hr => persistRow_dropped m s db row hr⟩
  · intro x hx
    unfold saveURLScanResults crawlPersist at hx
    split at hx
    · exact foldl_persistRow_endpoints_mem _ _ _ _ x hx
    · rcases foldl_persistRow_endpoints_mem _ _ _ _ x hx with h | h
      · rcases foldl_upsertSubdomainUpdate_tables
          ((crawlCollect db rootDomain rootDomainID scanID now initialSync
            results).toCreate) db with ⟨he, _⟩
        rw [he] at h
        exact Or.inl h
      · exact Or.inr h
  · intro x hx
    unfold saveURLScanResults crawlPersist at hx
    split at hx
    · exact foldl_persistRow_parameters_mem _ _ _ _ x hx
    · rcases foldl_persistRow_parameters_mem _ _ _ _ x hx with h | h
      · rcases foldl_upsertSubdomainUpdate_tables
          ((crawlCollect db rootDomain rootDomainID scanID now initialSync
            results).toCreate) db with ⟨_, hp⟩
        rw [hp] at h
        exact Or.inl h
      · exact Or.inr h

/-- Witness for C6: a concrete unresolvable crawl row is dropped without
touching an empty store. -/
theorem crawl_zero_id_safety_witness :
    resolveSubID [] [] "ghost.example.com" = none
    ∧ persistRow [] [] DB.empty
        ⟨"ghost.example.com", sampleUrlResult.endpoint,
         sampleUrlResult.params, sampleUrlResult.fullURL⟩ = DB.empty :=
  ⟨rfl,
   (crawl_zero_id_safety DB.empty "example.com" 1 7 0 [] []).2.2 [] []
     ⟨"ghost.example.com", sampleUrlResult.endpoint, sampleUrlResult.params,
      sampleUrlResult.fullURL⟩ rfl⟩

/-! ### Natural-key uniqueness preservation (C3) -/

/-- Appending a fresh element keeps a list duplicate-free. -/
theorem nodup_append_singleton {α : Type} (l : List α) (a : α)
    (hl : l.Nodup) (ha : a ∉ l) : (l ++ [a]).Nodup := by
  rw [List.nodup_append]
  refine ⟨hl, List.nodup_singleton a, ?_⟩
  intro x hx hxa
  rw [List.mem_singleton] at hxa
  subst hxa
  exact ha hx

/-- The conflict-ignoring subdomain insert touches no other table. -/
theorem insertSubdomainIgnore_tables (db : DB) (b : Subdomain) :
    (insertSubdomainIgnore db b).endpoints = db.endpoints
    ∧ (insertSubdomainIgnore db b).parameters = db.parameters := by
  unfold insertSubdomainIgnore
  split <;> exact ⟨rfl, rfl⟩

/-- The endpoint upsert does not touch the subdomain table. -/
theorem upsertEndpoint_subdomains (db : DB) (ep : Endpoint) :
    (upsertEndpoint db ep).1.subdomains = db.subdomains := by
  unfold upsertEndpoint
  rcases hf : db.endpoints.find? (endpointKeyMatch ep) with _ | e <;>
    simp [hf]

/-- The parameter upsert does not touch the subdomain table. -/
theorem upsertParameter_subdomains (db : DB) (p : Parameter) :
    (upsertParameter db p).subdomains = db.subdomains := by
  unfold upsertParameter
  rcases hf : db.parameters.find? (parameterKeyMatch p) with _ | q <;>
    simp [hf]

/-- Natural-key uniqueness of the subdomain table survives the
conflict-ignoring insert. -/
theorem subKeys_insertSubdomainIgnore (db : DB) (b : Subdomain)
    (h : (subKeys db).Nodup) :
    (subKeys (insertSubdomainIgnore db b)).Nodup := by
  unfold insertSubdomainIgnore
  by_cases hc : db.subdomains.any (subdomainKeyMatch b) = true
  · rw [if_pos hc]
    exact h
  · rw [if_neg hc]
    unfold subKeys at h ⊢
    simp only [List.map_append, List.map_cons, List.map_nil]
    refine nodup_append_singleton _ _ h ?_
    intro hmem
    rcases List.mem_map.mp hmem with ⟨r, hr, hkey⟩
    simp only [Prod.mk.injEq] at hkey
    apply hc
    refine List.any_eq_true.mpr ⟨r, hr, ?_⟩
    unfold subdomainKeyMatch
    simp [hkey.1, hkey.2]

/-- Natural-key uniqueness of the subdomain table survives the
conflict-updating insert of the crawl phase. -/
theorem subKeys_upsertSubdomainUpdate (db : DB) (b : Subdomain)
    (h : (subKeys db).Nodup) :
    (subKeys (upsertSubdomainUpdate db b)).Nodup := by
  unfold upsertSubdomainUpdate
  by_cases hc : db.subdomains.any (subdomainKeyMatch b) = true
  · rw [if_pos hc]
    unfold subKeys at h ⊢
    rw [List.map_map]
    have hcongr : ∀ r ∈ db.subdomains,
        ((fun r => (r.hostname, r.rootDomainID)) ∘ updateSubdomainRow b) r
          = (fun r => (r.hostname, r.rootDomainID)) r := by
      intro r hr
      simp only [Function.comp]
      unfold updateSubdomainRow
      split <;> rfl
    rw [List.map_congr_left hcongr]
    exact h
  · rw [if_neg hc]
    unfold subKeys at h ⊢
    simp only [List.map_append, List.map_cons, List.map_nil]
    refine nodup_append_singleton _ _ h ?_
    intro hmem
    rcases List.mem_map.mp hmem with ⟨r, hr, hkey⟩
    simp only [Prod.mk.injEq] at hkey
    apply hc
    refine List.any_eq_true.mpr ⟨r, hr, ?_⟩
    unfold subdomainKeyMatch
    simp [hkey.1, hkey.2]

/-- Natural-key uniqueness of the endpoint table survives the endpoint
upsert: an update keeps every key, an insert only happens when the key is
absent. -/
theorem epKeys_upsertEndpoint (db : DB) (ep : Endpoint)
    (h : (epKeys db).Nodup) :
    (epKeys (upsertEndpoint db ep).1).Nodup := by
  unfold upsertEndpoint
  rcases hf : db.endpoints.find? (endpointKeyMatch ep) with _ | e
  · simp only [hf]
    unfold epKeys at h ⊢
    simp only [List.map_append, List.map_cons, List.map_nil]
    refine nodup_append_singleton _ _ h ?_
    intro hmem
    rcases List.mem_map.mp hmem with ⟨r, hr, hkey⟩
    simp only [Prod.mk.injEq] at hkey
    have hp := List.find?_eq_none.mp hf r hr
    apply hp
    unfold endpointKeyMatch
    simp [hkey.1, hkey.2.1, hkey.2.2]
  · simp only [hf]
    unfold epKeys at h ⊢
    rw [List.map_map]
    have hcongr : ∀ r ∈ db.endpoints,
        ((fun x => (x.subdomainID, x.path, x.method)) ∘ updateEndpointRow ep)
          r = (fun x => (x.subdomainID, x.path, x.method)) r := by
      intro r hr
      simp only [Function.comp]
      unfold updateEndpointRow
      split <;> rfl
    rw [List.map_congr_left hcongr]
    exact h

/-- Natural-key uniqueness of the parameter table survives the parameter
upsert. -/
theorem paramKeys_upsertParameter (db : DB) (p : Parameter)
    (h : (paramKeys db).Nodup) :
    (paramKeys (upsertParameter db p)).Nodup := by
  unfold upsertParameter
  rcases hf : db.parameters.find? (parameterKeyMatch p) with _ | q
  · simp only [hf]
    unfold paramKeys at h ⊢
    simp only [List.map_append, List.map_cons, List.map_nil]
    refine nodup_append_singleton _ _ h ?_
    intro hmem
    rcases List.mem_map.mp hmem with ⟨r, hr, hkey⟩
    simp only [Prod.mk.injEq] at hkey
    have hp := List.find?_eq_none.mp hf r hr
    apply hp
    unfold parameterKeyMatch
    simp [hkey.1, hkey.2.1, hkey.2.2]
  · simp only [hf]
    unfold paramKeys at h ⊢
    rw [List.map_map]
    have hcongr : ∀ r ∈ db.parameters,
        ((fun x => (x.endpointID, x.name, x.paramType))
          ∘ updateParameterRow p) r
          = (fun x => (x.endpointID, x.name, x.paramType)) r := by
      intro r hr
      simp only [Function.comp]
      unfold updateParameterRow
      split <;> rfl
    rw [List.map_congr_left hcongr]
    exact h

/-- All three natural-key invariants survive the conflict-ignoring insert. -/
theorem insertSubdomainIgnore_inv (db : DB) (b : Subdomain)
    (h : naturalKeysUnique db) :
    naturalKeysUnique (insertSubdomainIgnore db b) := by
  rcases h with ⟨h1, h2, h3⟩
  rcases insertSubdomainIgnore_tables db b with ⟨he, hp⟩
  refine ⟨subKeys_insertSubdomainIgnore db b h1, ?_, ?_⟩
  · unfold epKeys at h2 ⊢
    rw [he]
    exact h2
  · unfold paramKeys at h3 ⊢
    rw [hp]
    exact h3

/-- All three natural-key invariants survive the crawl subdomain upsert. -/
theorem upsertSubdomainUpdate_inv (db : DB) (b : Subdomain)
    (h : naturalKeysUnique db) :
    naturalKeysUnique (upsertSubdomainUpdate db b) := by
  rcases h with ⟨h1, h2, h3⟩
  rcases upsertSubdomainUpdate_tables db b with ⟨he, hp⟩
  refine ⟨subKeys_upsertSubdomainUpdate db b h1, ?_, ?_⟩
  · unfold epKeys at h2 ⊢
    rw [he]
    exact h2
  · unfold paramKeys at h3 ⊢
    rw [hp]
    exact h3

/-- All three natural-key invariants survive the endpoint upsert. -/
theorem upsertEndpoint_inv (db : DB) (ep : Endpoint)
    (h : naturalKeysUnique db) :
    naturalKeysUnique (upsertEndpoint db ep).1 := by
  rcases h with ⟨h1, h2, h3⟩
  refine ⟨?_, epKeys_upsertEndpoint db ep h2, ?_⟩
  · unfold subKeys at h1 ⊢
    rw [upsertEndpoint_subdomains]
    exact h1
  · unfold paramKeys at h3 ⊢
    rw [upsertEndpoint_parameters]
    exact h3

/-- All three natural-key invariants survive the parameter upsert. -/
theorem upsertParameter_inv (db : DB) (p : Parameter)
    (h : naturalKeysUnique db) :
    naturalKeysUnique (upsertParameter db p) := by
  rcases h with ⟨h1, h2, h3⟩
  refine ⟨?_, ?_, paramKeys_upsertParameter db p h3⟩
  · unfold subKeys at h1 ⊢
    rw [upsertParameter_subdomains]
    exact h1
  · unfold epKeys at h2 ⊢
    rw [upsertParameter_endpoints]
    exact h2

/-- Invariant preservation lifts to left folds. -/
theorem foldl_inv {α : Type} (f : DB → α → DB)
    (hf : ∀ db a, naturalKeysUnique db → naturalKeysUnique (f db a)) :
    ∀ (l : List α) (db : DB), naturalKeysUnique db →
      naturalKeysUnique (l.foldl f db) := by
  intro l
  induction l with
  | nil => intro db h; exact h
  | cons a as ih =>
    intro db h
    rw [List.foldl_cons]
    exact ih _ (hf db a h)

/-- All three natural-key invariants survive persisting one resolved
crawl row. -/
theorem persistResolved_inv (db : DB) (row : CrawlRow) (sid : Nat)
    (h : naturalKeysUnique db) :
    naturalKeysUnique (persistResolved db row sid) := by
  unfold persistResolved
  split
  · exact upsertEndpoint_inv db _ h
  · exact foldl_inv _
      (fun d p hp => upsertParameter_inv d _ hp) row.params _
      (upsertEndpoint_inv db _ h)

/-- All three natural-key invariants survive persisting one crawl row. -/
theorem persistRow_inv (m s : List (String × Nat)) (db : DB)
    (row : CrawlRow) (h : naturalKeysUnique db) :
    naturalKeysUnique (persistRow m s db row) := by
  unfold persistRow
  rcases hr : resolveSubID m s row.host with _ | sid
  · exact h
  · exact persistResolved_inv db row sid h

/-- All three natural-key invariants survive the crawl persistence pass. -/
theorem crawlPersist_inv (db : DB) (rootDomainID : Nat) (st : CollectState)
    (h : naturalKeysUnique db) :
    naturalKeysUnique (crawlPersist db rootDomainID st) := by
  unfold crawlPersist
  split
  · exact foldl_inv _ (fun d r hd => persistRow_inv _ _ d r hd)
      st.buffered db h
  · exact foldl_inv _ (fun d r hd => persistRow_inv _ _ d r hd)
      st.buffered _
      (foldl_inv _ (fun d b hd => upsertSubdomainUpdate_inv d b hd)
        st.toCreate db h)

/-- All three natural-key invariants survive `saveSubdomains`. -/
theorem saveSubdomains_inv (db : DB) (rdid scanID now : Nat)
    (subs : List String) (h : naturalKeysUnique db) :
    naturalKeysUnique (saveSubdomains db rdid scanID now subs).1 := by
  cases subs with
  | nil => exact h
  | cons x xs =>
    exact foldl_inv _ (fun d b hd => insertSubdomainIgnore_inv d b hd)
      (subdomainBatch rdid scanID now (x :: xs)) db h

/-- All three natural-key invariants survive `saveURLScanResults`. -/
theorem saveURLScanResults_inv (db : DB) (rootDomain : String)
    (rootDomainID scanID now : Nat) (initialSync : List (String × Nat))
    (results : List UrlScanResult) (h : naturalKeysUnique db) :
    naturalKeysUnique (saveURLScanResults db rootDomain rootDomainID scanID
      now initialSync results) :=
  crawlPersist_inv db rootDomainID _ h

/-- One discovery-persistence run preserves all natural-key invariants. -/
theorem discoveryRun_inv (rootDomain : String) (rdid scanID now : Nat)
    (active : List String) (results : List UrlScanResult) (db : DB)
    (h : naturalKeysUnique db) :
    naturalKeysUnique (discoveryRun rootDomain rdid scanID now active
      results db) :=
  saveURLScanResults_inv _ rootDomain rdid scanID now _ results
    (saveSubdomains_inv db rdid scanID now active h)

/-- Claim C3: running discovery persistence any number of times against
the same root domain with the same active hostname set and the same
re-crawled results never produces a second Subdomain row for one
`(hostname, root domain)`, a second Endpoint row for one `(subdomain,
path, method)`, or a second Parameter row for one
`(endpoint, name, kind)`: natural-key uniqueness holds after all N runs. -/
theorem rediscovery_no_duplicates (rootDomain : String)
    (rdid scanID now : Nat) (active : List String)
    (results : List UrlScanResult) (db : DB) (n : Nat)
    (h : naturalKeysUnique db) :
    naturalKeysUnique
      ((discoveryRun rootDomain rdid scanID now active results)^[n] db) := by
  induction n with
  | zero => exact h
  | succ n ih =>
    rw [Function.iterate_succ_apply']
    exact discoveryRun_inv rootDomain rdid scanID now active results _ ih

/-- Witness for C3: two repeated runs on a concrete store, active set and
crawl result leave the natural keys duplicate-free. -/
theorem rediscovery_no_duplicates_witness :
    naturalKeysUnique DB.empty
    ∧ naturalKeysUnique
      ((discoveryRun "example.com" 1 7 0 ["example.com", "a.example.com"]
        [sampleUrlResult])^[2] DB.empty) :=
  ⟨by decide,
   rediscovery_no_duplicates "example.com" 1 7 0
     ["example.com", "a.example.com"] [sampleUrlResult] DB.empty 2
     (by decide)⟩

end Kasm
